import Mathlib

/-!
Verification development for the Alaska wildfire values-at-risk attribution engine.

This file gives a shallow embedding, in Lean 4, of the core data model and
algorithms of the repository (src/process/queries.py, src/process/analysis.py,
src/utils/project.py, src/utils/arcgis_helpers.py), and proves or refutes the
frozen specification claims about them.

Conventions of the embedding:
 - Python dicts that are serialized by json.dumps are modelled as ordered
   association lists (Python dicts preserve insertion order), and json.dumps
   with its default separators is modelled character-for-character.
 - Python ints are Lean Int; the two-decimal rounded distance values produced
   by the proximity analyzer are modelled as rationals whose denominator
   divides 100, serialized the way CPython writes such floats.
 - Library calls whose semantics live outside the repository (shapely
   distances, coordinate transforms, math.atan2) appear as oracle parameters.
 - Fallible code paths (an unbound local, a KeyError) return Option.
-/

/-! ## JSON value model and the json.dumps serializer -/

/-- JSON values appearing in attribute payloads: null, a Python int, a
two-decimal numeric value, or a string. -/
inductive JVal where
  | jnull : JVal
  | jbool (b : Bool) : JVal
  | jint (n : Int) : JVal
  | jnum (q : ℚ) : JVal
  | jstr (s : String) : JVal
deriving DecidableEq, Repr

/-- Lower-case hexadecimal digit, as used by json.dumps \uXXXX escapes. -/
def hexDigit (n : Nat) : Char :=
  if n < 10 then Char.ofNat (48 + n) else Char.ofNat (87 + (n % 16))

/-- Four-digit \uXXXX escape used by json.dumps (ensure_ascii default). -/
def uEscape (n : Nat) : String :=
  "\\u" ++ String.mk [hexDigit ((n / 4096) % 16), hexDigit ((n / 256) % 16),
    hexDigit ((n / 16) % 16), hexDigit (n % 16)]

/-- Escape of one character inside a JSON string literal, following
json.dumps with its default ensure_ascii=True. -/
def jsonEscapeChar (c : Char) : String :=
  if c = '"' then "\\\""
  else if c = '\\' then "\\\\"
  else if c = '\n' then "\\n"
  else if c = '\t' then "\\t"
  else if c = '\r' then "\\r"
  else if c = '\x08' then "\\b"
  else if c = '\x0c' then "\\f"
  else if c.toNat < 32 ∨ 126 < c.toNat then uEscape c.toNat
  else String.singleton c

/-- Concatenation of a list of strings. -/
def strJoin : List String → String
  | [] => ""
  | s :: rest => s ++ strJoin rest

/-- Concatenation with a separator between elements, as str.join in Python. -/
def strInter (sep : String) : List String → String
  | [] => ""
  | s :: rest =>
    match rest with
    | [] => s
    | _ :: _ => s ++ sep ++ strInter sep rest

/-- JSON string literal with surrounding quotes, as json.dumps writes it. -/
def jsonStr (s : String) : String :=
  "\"" ++ strJoin (s.data.map jsonEscapeChar) ++ "\""

/-- Decimal representation of a Python int, as json.dumps writes it. -/
def intRepr (n : Int) : String :=
  if n < 0 then "-" ++ Nat.repr n.natAbs else Nat.repr n.natAbs

/-- CPython repr of a float holding a two-decimal value q (denominator of q
divides 100): integer part, a dot, then one or two fractional digits with a
trailing zero dropped but at least one digit kept. -/
def ratRepr2 (q : ℚ) : String :=
  let c : Int := Int.floor (q * 100)
  let sign := if c < 0 then "-" else ""
  let a := c.natAbs
  let ip := a / 100
  let fr := a % 100
  let frs := if fr % 10 = 0 then Nat.repr (fr / 10)
    else if fr < 10 then "0" ++ Nat.repr fr else Nat.repr fr
  sign ++ Nat.repr ip ++ "." ++ frs

/-- json.dumps of a single JSON value. -/
def serJVal : JVal → String
  | .jnull => "null"
  | .jbool b => if b then "true" else "false"
  | .jint n => intRepr n
  | .jnum q => ratRepr2 q
  | .jstr s => jsonStr s

/-! ## Nearest/interior feature sets and the size-bounded serializer
(src/process/analysis.py, _trim_nearest_feats) -/

/-- One output feature record of the proximity analyzer: a Python dict whose
first key is always dist_mi (the analyzer builds the columns in the order
dist_mi, dir, lat, lng, then the included fields), followed by the remaining
key/value pairs in insertion order. -/
structure Feature where
  dist_mi : JVal
  rest : List (String × JVal)
deriving DecidableEq, Repr

/-- json.dumps of one feature dict. -/
def serFeature (f : Feature) : String :=
  "\x7b" ++ jsonStr "dist_mi" ++ ": " ++ serJVal f.dist_mi ++
    strJoin (f.rest.map (fun kv => ", " ++ jsonStr kv.1 ++ ": " ++ serJVal kv.2)) ++
    "\x7d"

/-- json.dumps of a list of feature dicts. -/
def serFeatureList (fs : List Feature) : String :=
  "[" ++ strInter ", " (fs.map serFeature) ++ "]"

/-- The object handed to _trim_nearest_feats: an ordered feature list plus the
baseline popped count and distance cutoff recorded when the list was capped. -/
structure NearestFset where
  features : List Feature
  popped : Int
  cutoff : JVal
deriving DecidableEq, Repr

/-- json.dumps of a feature-set object, with the key order used by the
analyzer: features, popped, cutoff. -/
def serFset (fs : NearestFset) : String :=
  "\x7b" ++ "\"features\": " ++ serFeatureList fs.features ++
    ", \"popped\": " ++ intRepr fs.popped ++
    ", \"cutoff\": " ++ serJVal fs.cutoff ++ "\x7d"

/-- The cutoff of the candidate object at prefix length mid: the dist_mi of
features[mid - 1] when mid < len(features) (for mid = 0 Python indexing makes
this features[-1], the last feature of the whole list), else the baseline
cutoff. -/
def trimCutoff (fs : NearestFset) (mid : Nat) : JVal :=
  if mid < fs.features.length then
    (fs.features.getD ((mid + fs.features.length - 1) % fs.features.length)
      ⟨JVal.jnull, []⟩).dist_mi
  else fs.cutoff

/-- The candidate object tested at prefix length mid: the first mid features,
popped = (len(features) - mid) + baseline popped, and the cutoff above. -/
def trimCandidate (fs : NearestFset) (mid : Nat) : NearestFset :=
  ⟨fs.features.take mid, Int.ofNat (fs.features.length - mid) + fs.popped,
    trimCutoff fs mid⟩

/-- Serialization of the candidate object at prefix length mid. -/
def serCandidate (fs : NearestFset) (mid : Nat) : String :=
  serFset (trimCandidate fs mid)

/-- The binary-search loop of _trim_nearest_feats. best is the last candidate
serialization that fit; it is none when no candidate has fit yet (returning
none at exhaustion models the UnboundLocalError the Python raises then). -/
def trimLoop (fs : NearestFset) (low high : Nat) (best : Option String) :
    Option String :=
  if _hlh : low < high then
    let mid := (low + high) / 2
    let test_serialized := serCandidate fs mid
    if test_serialized.length ≤ 5000 then
      trimLoop fs (mid + 1) high (some test_serialized)
    else
      trimLoop fs low mid best
  else best
termination_by high - low
decreasing_by
  · omega
  · omega

/-- Embedding of _trim_nearest_feats: return the full serialization when it
fits in 5000 characters, otherwise binary-search over the prefix length. -/
def trim_nearest_feats (fs : NearestFset) : Option String :=
  let full_serialized := serFset fs
  if full_serialized.length ≤ 5000 then some full_serialized
  else trimLoop fs 0 fs.features.length none

/-- Concrete input refuting claim C3: three features in ascending dist_mi
order (a hugely negative first distance whose decimal form is 62 characters
long, then two zeros), the first feature padded so that the candidate at
prefix length 1 overshoots the budget while the candidate at prefix length 2
fits it exactly. -/
def exPad : String := String.mk (List.replicate 4856 'x')

/-- First feature of the C3 counterexample input. -/
def exF0 : Feature := ⟨.jint (-(10 : Int) ^ 60), [("pad", .jstr exPad)]⟩

/-- Second and third features of the C3 counterexample input. -/
def exF1 : Feature := ⟨.jint 0, []⟩

/-- The C3 counterexample feature set. -/
def exFset : NearestFset := ⟨[exF0, exF1, exF1], 0, .jnull⟩

/-! ## Grouped-attribute JSON trimming (src/process/analysis.py,
_sort_trim_attr_json) -/

/-- json.dumps of one key/value pair of a grouped-attribute dict; the numeric
value serializer is a parameter (grouped sums are Python ints for counts and
feet, two-decimal floats for acres). -/
def serAttrPair (serV : ℚ → String) (kv : String × ℚ) : String :=
  jsonStr kv.1 ++ ": " ++ serV kv.2

/-- json.dumps of a grouped-attribute dict, in insertion order. -/
def serAttrJson (serV : ℚ → String) (l : List (String × ℚ)) : String :=
  "\x7b" ++ strInter ", " (l.map (serAttrPair serV)) ++ "\x7d"

/-- Stable insertion of a pair into a list already sorted by descending
value: the pair goes in front of the first element whose value is at most its
own, which is exactly where Python sorted(..., reverse=True) keeps it. -/
def insertDesc (kv : String × ℚ) : List (String × ℚ) → List (String × ℚ)
  | [] => [kv]
  | y :: ys => if y.2 ≤ kv.2 then kv :: y :: ys else y :: insertDesc kv ys

/-- Python sorted(attr_json.items(), key value, reverse=True): stable
descending sort by value. -/
def sortDesc : List (String × ℚ) → List (String × ℚ)
  | [] => []
  | kv :: rest => insertDesc kv (sortDesc rest)

/-- The while loop of _sort_trim_attr_json: while the serialized dict exceeds
max_length, popitem removes the last (smallest-valued) pair; popitem on an
empty dict raises KeyError, modelled as none. -/
def popLoop (serV : ℚ → String) (max_length : Nat) (l : List (String × ℚ)) :
    Option String :=
  if (serAttrJson serV l).length > max_length then
    match l with
    | [] => none
    | x :: xs => popLoop serV max_length (x :: xs).dropLast
  else some (serAttrJson serV l)
termination_by l.length
decreasing_by
  simp [List.length_dropLast]

/-- Embedding of _sort_trim_attr_json: sort the dict by value in descending
order, then shorten it one pair at a time while its serialized length exceeds
max_length (5000 by default at the call sites). -/
def sort_trim_attr_json (serV : ℚ → String) (attr_json : List (String × ℚ))
    (max_length : Nat := 5000) : Option String :=
  popLoop serV max_length (sortDesc attr_json)

/-! ## Attribution tuples and analysis directives (src/utils/project.py) -/

/-- The value slot of an attribution tuple: either a JSON-able value (number,
string, or None) or a captured exception payload, i.e. the
(type(e), formatted traceback) pair the workers put in the tuple. -/
inductive AttrVal where
  | val (v : JVal) : AttrVal
  | exc (info : String) : AttrVal
deriving DecidableEq, Repr

/-- An attribution tuple (IrwinID, buf_dist, attrName, attrVal): the sole
result currency of the engine. -/
structure AttrTup where
  irwin : String
  buf_dist : Nat
  attrName : String
  attrVal : AttrVal
deriving DecidableEq, Repr

/-- The analysis_types dict derived per alias from the analysis plan by
write_analysis_types_dict: which attribute-producing operations apply. A
Boolean models presence of the keyword key; a field list models the parsed
tuple of field names (an empty list behaves exactly like an absent key); the
nearest-feats entry is an Option because its mere presence is tested. -/
structure AnalysisTypes where
  feature_count : Bool
  total_acres : Bool
  total_length_ft : Bool
  acres_sum_fields : List String
  length_ft_sum_fields : List String
  value_sum_fields : List String
  attr_count_fields : List String
  nearest_feats_fields : Option (List String)
deriving DecidableEq, Repr

/-- Embedding of batch_write_attr_tups: all attribution tuples for one fire,
ring and value-at-risk input, each given the same value (None by default). -/
def batch_write_attr_tups (identifier : String) (buf_dist : Nat)
    (var_alias : String) (analysis_types : AnalysisTypes)
    (value : AttrVal := .val .jnull) : List AttrTup :=
  (if analysis_types.feature_count then
    [⟨identifier, buf_dist, var_alias ++ "_feat_count", value⟩] else []) ++
  (if analysis_types.total_acres then
    [⟨identifier, buf_dist, var_alias ++ "_total_acres", value⟩] else []) ++
  (if analysis_types.total_length_ft then
    [⟨identifier, buf_dist, var_alias ++ "_total_feet", value⟩] else []) ++
  (analysis_types.acres_sum_fields.map fun field =>
    ⟨identifier, buf_dist, var_alias ++ "_" ++ field ++ "_acres_sum", value⟩) ++
  (analysis_types.length_ft_sum_fields.map fun field =>
    ⟨identifier, buf_dist, var_alias ++ "_" ++ field ++ "_feet_sum", value⟩) ++
  (analysis_types.value_sum_fields.map fun field =>
    ⟨identifier, buf_dist, var_alias ++ "_" ++ field ++ "_value_sum", value⟩) ++
  (analysis_types.attr_count_fields.map fun field =>
    ⟨identifier, buf_dist, var_alias ++ "_" ++ field ++ "_attr_count", value⟩)

/-- The attribute names batch_write_attr_tups produces, in order. -/
def batch_attr_names (var_alias : String) (analysis_types : AnalysisTypes) :
    List String :=
  (if analysis_types.feature_count then [var_alias ++ "_feat_count"] else []) ++
  (if analysis_types.total_acres then [var_alias ++ "_total_acres"] else []) ++
  (if analysis_types.total_length_ft then [var_alias ++ "_total_feet"] else []) ++
  (analysis_types.acres_sum_fields.map fun field =>
    var_alias ++ "_" ++ field ++ "_acres_sum") ++
  (analysis_types.length_ft_sum_fields.map fun field =>
    var_alias ++ "_" ++ field ++ "_feet_sum") ++
  (analysis_types.value_sum_fields.map fun field =>
    var_alias ++ "_" ++ field ++ "_value_sum") ++
  (analysis_types.attr_count_fields.map fun field =>
    var_alias ++ "_" ++ field ++ "_attr_count")

/-! ## The response classifier (src/process/queries.py,
_handle_query_responses) -/

/-- A feature of a query response payload, as far as the classifier inspects
it: whether it has a geometry key, and whether that geometry has rings. -/
structure QFeature where
  has_geometry : Bool
  has_rings : Bool
deriving DecidableEq, Repr

/-- A value of a response-payload key as far as the classifier inspects it:
the feature array under the features key, or anything else. -/
inductive PVal where
  | feats (fs : List QFeature) : PVal
  | other : PVal
deriving DecidableEq, Repr

/-- The data slot of a query response: the reduced-exception tuple returned
by send_query_bundle when the query task raised, or a JSON payload dict
modelled as an insertion-ordered association list. -/
inductive QueryData where
  | excReduction (info : String) : QueryData
  | payload (obj : List (String × PVal)) : QueryData
deriving DecidableEq, Repr

/-- One element of the list handed to _handle_query_responses: either a
harness-level reduced exception (a tuple starting with an exception type,
which the code logs as critical and skips), or the expected
(identifier, var_alias, data) tuple. -/
inductive QueryResponse where
  | harnessError (info : String) : QueryResponse
  | ok (identifier : String) (var_alias : String) (data : QueryData) : QueryResponse
deriving DecidableEq, Repr

/-- The three accumulators of _handle_query_responses: the per-fire analysis
routing (query_features_dict entries, in append order), the no-analysis
attribution-tuple batches, and the (level, message-tag) log entries (log
message bodies are abbreviated to their identifying tag). -/
structure ClassifyOut where
  query_features : List (String × String × List QFeature)
  results_no_analysis : List (List AttrTup)
  logs : List (String × String)
deriving DecidableEq, Repr

/-- The full no-analysis complement written for a failed or empty
(fire, dataset) pair: one batch of batch_write_attr_tups tuples per ring
level 0, 1, 3, 5, with the two ring-0 nearest/interior tuples appended to the
ring-5 batch when the directive requests nearest-feature extraction. -/
def errorComplement (identifier var_alias : String)
    (analysis_types : AnalysisTypes) (value : AttrVal) : List (List AttrTup) :=
  [0, 1, 3, 5].map fun buf_dist =>
    let attr_tups := batch_write_attr_tups identifier buf_dist var_alias
      analysis_types value
    if analysis_types.nearest_feats_fields.isSome ∧ buf_dist = 5 then
      attr_tups ++
        [⟨identifier, 0, var_alias ++ "_nearest_feats", value⟩,
         ⟨identifier, 0, var_alias ++ "_interior_feats", value⟩]
    else attr_tups

/-- Classification of a single query response by _handle_query_responses.
plan models write_analysis_types_dict applied to the analysis plan. The
result is none only when the payload carries a features key whose value is
not a feature array (the Python would raise an uncaught TypeError there). -/
def classifyResponse (plan : String → AnalysisTypes) :
    QueryResponse → Option ClassifyOut
  | .harnessError _ => some ⟨[], [], [("critical", "reduced_exception")]⟩
  | .ok identifier var_alias data =>
    let analysis_types := plan var_alias
    match data with
    | .excReduction _ =>
      some ⟨[], errorComplement identifier var_alias analysis_types
        (.val (.jstr "!EXCEPTION!")), [("error", "exception_info")]⟩
    | .payload obj =>
      if (obj.lookup "error").isSome ∧ obj.length = 1 then
        some ⟨[], errorComplement identifier var_alias analysis_types
          (.val (.jstr "!QUERYERROR!")), [("error", "query_error_info")]⟩
      else
        match obj.lookup "features" with
        | some (.feats fs) =>
          match fs with
          | [] =>
            some ⟨[], errorComplement identifier var_alias analysis_types
              (.val .jnull), []⟩
          | sample_feature :: _ =>
            if sample_feature.has_geometry ∧ sample_feature.has_rings then
              some ⟨[(identifier, var_alias, fs)], [], []⟩
            else if sample_feature.has_geometry then
              some ⟨[(identifier, var_alias, fs)], [], []⟩
            else
              some ⟨[], [], []⟩
        | some .other => none
        | none =>
          some ⟨[], errorComplement identifier var_alias analysis_types
            (.val (.jstr "!UNEXPECTED!")), [("error", "unexpected_query_response")]⟩

/-- The loop of _handle_query_responses over a whole response list,
accumulating the three outputs in order. -/
def handle_query_responses (plan : String → AnalysisTypes) :
    List QueryResponse → Option ClassifyOut
  | [] => some ⟨[], [], []⟩
  | r :: rest => do
    let h ← classifyResponse plan r
    let t ← handle_query_responses plan rest
    pure ⟨h.query_features ++ t.query_features,
      h.results_no_analysis ++ t.results_no_analysis, h.logs ++ t.logs⟩

/-- The directive used by the claim C5 end-to-end example: alias roads with
TOTAL_LENGTH_FT as its only analysis type. -/
def roadsPlan : String → AnalysisTypes :=
  fun _ => ⟨false, false, true, [], [], [], [], none⟩

/-! ## Worker-side analysis outcomes (src/process/analysis.py,
_analyze_poly_var and parse_analysis_errors) -/

/-- Outcome of one per-attribute computation inside an analyzer: the computed
JSON-able value, or an exception caught by the per-attribute try block. -/
inductive CompOut where
  | ok (v : JVal) : CompOut
  | raise (info : String) : CompOut
deriving DecidableEq, Repr

/-- Tuple value written for a per-attribute computation outcome. -/
def compVal : CompOut → AttrVal
  | .ok v => .val v
  | .raise info => .exc info

/-- Embedding of _analyze_poly_var's control flow. The pandas/shapely work is
abstracted into two oracles: pre is the outcome of _preprocess_poly_var_gdf
(an exception, or the number of clipped rows that survive), and comp gives
the outcome of the per-attribute computation for each attribute name. The
returned list is what the worker puts on the manager queue. -/
def analyze_poly_var (identifier : String) (buf_dist : Nat) (var_alias : String)
    (analysis_types : AnalysisTypes) (pre : Except String Nat)
    (comp : String → CompOut) : List AttrTup :=
  match pre with
  | .error e =>
    batch_write_attr_tups identifier buf_dist var_alias analysis_types (.exc e)
  | .ok n =>
    if n < 1 then
      batch_write_attr_tups identifier buf_dist var_alias analysis_types
    else
      (if analysis_types.feature_count then
        [⟨identifier, buf_dist, var_alias ++ "_feat_count",
          compVal (comp (var_alias ++ "_feat_count"))⟩] else []) ++
      (if analysis_types.total_acres then
        [⟨identifier, buf_dist, var_alias ++ "_total_acres",
          compVal (comp (var_alias ++ "_total_acres"))⟩] else []) ++
      (analysis_types.acres_sum_fields.map fun field =>
        ⟨identifier, buf_dist, var_alias ++ "_" ++ field ++ "_acres_sum",
          compVal (comp (var_alias ++ "_" ++ field ++ "_acres_sum"))⟩) ++
      (analysis_types.value_sum_fields.map fun field =>
        ⟨identifier, buf_dist, var_alias ++ "_" ++ field ++ "_value_sum",
          compVal (comp (var_alias ++ "_" ++ field ++ "_value_sum"))⟩) ++
      (analysis_types.attr_count_fields.map fun field =>
        ⟨identifier, buf_dist, var_alias ++ "_" ++ field ++ "_attr_count",
          compVal (comp (var_alias ++ "_" ++ field ++ "_attr_count"))⟩)

/-- The per-tuple rewrite applied by parse_analysis_errors: an exception
payload in the value slot becomes the !ANALYSISERROR! sentinel string; any
other tuple is left unchanged. -/
def substAnalysisError (t : AttrTup) : AttrTup :=
  match t.attrVal with
  | .exc _ => ⟨t.irwin, t.buf_dist, t.attrName, .val (.jstr "!ANALYSISERROR!")⟩
  | .val _ => t

/-- Embedding of parse_analysis_errors (its logging side effects omitted):
replace every exception-payload tuple value with !ANALYSISERROR!. -/
def parse_analysis_errors (results : List (List AttrTup)) :
    List (List AttrTup) :=
  results.map (List.map substAnalysisError)

/-! ## The paginator (src/utils/arcgis_helpers.py,
AsyncArcGISRequester.paginate_arcgis_features) -/

/-- One query response as the pagination loop inspects it: the value under
the features key when present, and the value under the exceededTransferLimit
key when present (the loop only ever tests that key's presence). -/
structure PageResponse (α : Type) where
  features : Option (List α)
  exceededTransferLimit : Option JVal
deriving DecidableEq, Repr

/-- The value paginate_arcgis_features returns: the accumulated feature
collection, or a raw non-standard payload returned as-is. -/
inductive PaginateResult (α : Type) where
  | features (fs : List α) : PaginateResult α
  | raw (p : PageResponse α) : PaginateResult α
deriving DecidableEq, Repr

/-- The pagination loop. pages is the sequence of responses the source gives
to the successive query requests; the result is paired with the list of
resultOffset values at which requests were issued. Exhausting pages while
still paginating models a source that keeps signaling truncation, so the
loop would keep requesting: none. Mirrors the source: the offset advances
only when the exceededTransferLimit key is present (whatever its value). -/
def paginate_loop {α : Type} (result_rec_count : Nat) :
    List (PageResponse α) → Nat → List α →
    Option (PaginateResult α × List Nat)
  | [], _, _ => none
  | p :: rest, offset, acc =>
    match p.features with
    | none => some (.raw p, [offset])
    | some fs =>
      if p.exceededTransferLimit.isSome then
        (paginate_loop result_rec_count rest (offset + result_rec_count)
          (acc ++ fs)).map (fun r => (r.1, offset :: r.2))
      else some (.features (acc ++ fs), [offset])

/-- Embedding of paginate_arcgis_features: probe maxRecordCount from the
layer capability metadata (none models a KeyError, defaulting to 1000) and
run the pagination loop from offset 0. -/
def paginate_arcgis_features {α : Type} (maxRecordCount : Option Nat)
    (pages : List (PageResponse α)) : Option (PaginateResult α × List Nat) :=
  let result_rec_count := maxRecordCount.getD 1000
  paginate_loop result_rec_count pages 0 []

/-- Modelled from the spec: "repeatedly calls fetch with an advancing offset
until the source stops signaling truncation or returns a payload lacking a
features key". A source signals truncation by answering exceededTransferLimit
with true, so this loop keeps paginating only while a page carries that
signal; it differs from the code, which keeps paginating whenever the key is
present even with value false. -/
def paginate_spec_loop {α : Type} (result_rec_count : Nat) :
    List (PageResponse α) → Nat → List α →
    Option (PaginateResult α × List Nat)
  | [], _, _ => none
  | p :: rest, offset, acc =>
    match p.features with
    | none => some (.raw p, [offset])
    | some fs =>
      if p.exceededTransferLimit = some (.jbool true) then
        (paginate_spec_loop result_rec_count rest (offset + result_rec_count)
          (acc ++ fs)).map (fun r => (r.1, offset :: r.2))
      else some (.features (acc ++ fs), [offset])

/-- The spec-worded paginator, for comparison with the embedded code. -/
def paginate_spec {α : Type} (maxRecordCount : Option Nat)
    (pages : List (PageResponse α)) : Option (PaginateResult α × List Nat) :=
  paginate_spec_loop (maxRecordCount.getD 1000) pages 0 []

/-! ## The 16-point cardinal direction (src/process/analysis.py,
_get_cardinal_direction) -/

/-- A point in the working (EPSG:3338) plane; coordinates are modelled as
rationals. -/
structure QPoint where
  x : ℚ
  y : ℚ
deriving DecidableEq, Repr

/-- Python's modulo on floats for a positive modulus: a % m = a - m*floor(a/m),
landing in [0, m). -/
def pymod (a m : ℚ) : ℚ := a - m * ⌊a / m⌋

/-- Python's int() truncation toward zero. -/
def pytrunc (q : ℚ) : Int := if q < 0 then -⌊-q⌋ else ⌊q⌋

/-- The direction label table of _get_cardinal_direction, in source order. -/
def compass_directions : List String :=
  ["N", "NNE", "NE", "ENE", "E", "ESE", "SE", "SSE",
   "S", "SSW", "SW", "WSW", "W", "WNW", "NW", "NNW"]

/-- Embedding of _get_cardinal_direction. The composition
math.degrees(math.atan2 dy dx) is the oracle parameter atan2_degrees (a
transcendental function evaluated by the math library); the claims constrain
it only through its documented exact values. The list index is always below
16, so the getD default is never consulted. -/
def get_cardinal_direction (atan2_degrees : ℚ → ℚ → ℚ)
    (point_a point_b : QPoint) : String :=
  let dx := point_b.x - point_a.x
  let dy := point_b.y - point_a.y
  if dx = 0 ∧ dy = 0 then "None"
  else
    let angle := atan2_degrees dy dx
    let compass_angle := pymod (90 - angle) 360
    let index := (pytrunc ((compass_angle + 11.25) / 22.5)).toNat % 16
    compass_directions.getD index "N"

/-! ## The proximity analyzer (src/process/analysis.py,
_nearest_feats_analysis) -/

/-- One candidate value-at-risk feature row of var_gdf; its attribute columns
are an association list. The geometry itself is consulted only through the
oracles below. -/
structure VarFeat where
  attrs : List (String × JVal)
deriving DecidableEq, Repr

/-- The geometric computations _nearest_feats_analysis delegates to shapely
and pyproj, as oracles: the interior test (intersects the fire polygon),
the nearest-point distance in meters, the two nearest points (on the fire
boundary and on the feature), the angle oracle for the compass direction, and
the degrees-minutes latitude/longitude formatting of the feature's nearest
point. -/
structure ProxOracles where
  intersects : VarFeat → Bool
  meters : VarFeat → ℚ
  fire_pt : VarFeat → QPoint
  var_pt : VarFeat → QPoint
  atan2_degrees : ℚ → ℚ → ℚ
  lat : VarFeat → String
  lng : VarFeat → String

/-- Ascending insertion by a rational key. -/
def insertAscBy {β : Type} (key : β → ℚ) (x : β) : List β → List β
  | [] => [x]
  | y :: ys => if key x < key y then x :: y :: ys else y :: insertAscBy key x ys

/-- Ascending sort by a rational key (pandas sort_values, whose default
quicksort leaves tie order unspecified; every property proved below is
insensitive to tie order). -/
def sortAscBy {β : Type} (key : β → ℚ) : List β → List β
  | [] => []
  | x :: rest => insertAscBy key x (sortAscBy key rest)

/-- Round half to even, as CPython round(). -/
def roundHalfEven (q : ℚ) : Int :=
  let f := ⌊q⌋
  let r := q - f
  if r < 1 / 2 then f
  else if 1 / 2 < r then f + 1
  else if f % 2 = 0 then f else f + 1

/-- round(q, 2) on the rational model of the float values. -/
def pyround2 (q : ℚ) : ℚ := (roundHalfEven (q * 100) : ℚ) / 100

/-- Meters per mile as the source writes it: 1609.34. -/
def milesDivisor : ℚ := 160934 / 100

/-- The interior candidates sorted by ascending distance to the fire edge. -/
def interior_sorted (o : ProxOracles) (var_gdf : List VarFeat) : List VarFeat :=
  sortAscBy o.meters (var_gdf.filter o.intersects)

/-- The interior candidates kept after the cap of 50. -/
def interior_kept (o : ProxOracles) (var_gdf : List VarFeat) : List VarFeat :=
  (interior_sorted o var_gdf).take 50

/-- How many interior candidates the cap dropped. -/
def interior_popped (o : ProxOracles) (var_gdf : List VarFeat) : Nat :=
  (interior_sorted o var_gdf).length - (interior_kept o var_gdf).length

/-- The interior baseline cutoff: the miles distance of the farthest kept
entry when anything was dropped, and None otherwise (the iloc[-1] of the
kept frame is modelled by getLastD; the default is unreachable because a
positive popped count forces a non-empty kept list). -/
def interior_cutoff (o : ProxOracles) (var_gdf : List VarFeat) : Option ℚ :=
  if 0 < interior_popped o var_gdf then
    some (pyround2 (o.meters ((interior_kept o var_gdf).getLastD ⟨[]⟩) /
      milesDivisor))
  else none

/-- The non-interior (nearest) candidates sorted by ascending distance. -/
def nearest_sorted (o : ProxOracles) (var_gdf : List VarFeat) : List VarFeat :=
  sortAscBy o.meters (var_gdf.filter (fun f => ¬ o.intersects f))

/-- The nearest candidates kept after the cap of 50. -/
def nearest_kept (o : ProxOracles) (var_gdf : List VarFeat) : List VarFeat :=
  (nearest_sorted o var_gdf).take 50

/-- How many nearest candidates the cap dropped. -/
def nearest_popped (o : ProxOracles) (var_gdf : List VarFeat) : Nat :=
  (nearest_sorted o var_gdf).length - (nearest_kept o var_gdf).length

/-- The nearest baseline cutoff, like the interior one. -/
def nearest_cutoff (o : ProxOracles) (var_gdf : List VarFeat) : Option ℚ :=
  if 0 < nearest_popped o var_gdf then
    some (pyround2 (o.meters ((nearest_kept o var_gdf).getLastD ⟨[]⟩) /
      milesDivisor))
  else none

/-- One row of the fully attributed var_prox_df: the columns selected for
output, in the source's order dist_mi, dir, lat, lng, then included fields. -/
structure ProxRow where
  dist_mi : ℚ
  dir : String
  lat : String
  lng : String
  fields : List (String × JVal)
deriving DecidableEq, Repr

/-- fillna: var_gdf attributes can be unpredictably attributed, so a missing
or null attribute value becomes the string No Data. -/
def fillNoData (v : Option JVal) : JVal :=
  match v with
  | none => .jstr "No Data"
  | some .jnull => .jstr "No Data"
  | some w => w

/-- Build the output row of one kept candidate: the rounded miles distance,
the direction (Interior for interior candidates, else the 16-point compass
bearing from the fire's nearest boundary point to the feature's nearest
point), the formatted coordinates, and the included fields. -/
def mk_prox_row (o : ProxOracles) (included_fields : List String)
    (interior : Bool) (f : VarFeat) : ProxRow :=
  ⟨pyround2 (o.meters f / milesDivisor),
   if interior then "Interior"
   else get_cardinal_direction o.atan2_degrees (o.fire_pt f) (o.var_pt f),
   o.lat f, o.lng f,
   included_fields.map (fun fld => (fld, fillNoData (f.attrs.lookup fld)))⟩

/-- The concatenated kept rows (interior block first, as pd.concat does). -/
def combined_rows (o : ProxOracles) (included_fields : List String)
    (var_gdf : List VarFeat) : List ProxRow :=
  (interior_kept o var_gdf).map (mk_prox_row o included_fields true) ++
  (nearest_kept o var_gdf).map (mk_prox_row o included_fields false)

/-- The rows of the interior-feats attribute: dir equals Interior, sorted by
ascending rounded distance. -/
def interior_feats_rows (o : ProxOracles) (included_fields : List String)
    (var_gdf : List VarFeat) : List ProxRow :=
  sortAscBy ProxRow.dist_mi
    ((combined_rows o included_fields var_gdf).filter
      (fun r => r.dir = "Interior"))

/-- The rows of the nearest-feats attribute: dir differs from Interior,
sorted by ascending rounded distance. -/
def nearest_feats_rows (o : ProxOracles) (included_fields : List String)
    (var_gdf : List VarFeat) : List ProxRow :=
  sortAscBy ProxRow.dist_mi
    ((combined_rows o included_fields var_gdf).filter
      (fun r => ¬ r.dir = "Interior"))

/-- A row as the feature dict handed to the size-bounded serializer. -/
def proxRowFeature (r : ProxRow) : Feature :=
  ⟨.jnum r.dist_mi,
   [("dir", .jstr r.dir), ("lat", .jstr r.lat), ("lng", .jstr r.lng)] ++
     r.fields⟩

/-- An optional cutoff as the JSON value serialized into the feature set. -/
def cutoffJVal : Option ℚ → JVal
  | none => .jnull
  | some q => .jnum q

/-- The body of _nearest_feats_analysis after the empty-input early return:
write the interior tuple then the nearest tuple, serializing each non-empty
group through _trim_nearest_feats and writing null for an empty group. A
trim failure (none) aborts the body, modelling the exception path. -/
def nearest_feats_body (o : ProxOracles) (identifier var_alias : String)
    (included_fields : List String) (var_gdf : List VarFeat) :
    Option (List AttrTup) := do
  let ifr := interior_feats_rows o included_fields var_gdf
  let nfr := nearest_feats_rows o included_fields var_gdf
  let interior_tup ←
    if ifr.isEmpty then
      pure (AttrTup.mk identifier 0 (var_alias ++ "_interior_feats")
        (.val .jnull))
    else do
      let s ← trim_nearest_feats ⟨ifr.map proxRowFeature,
        Int.ofNat (interior_popped o var_gdf),
        cutoffJVal (interior_cutoff o var_gdf)⟩
      pure (AttrTup.mk identifier 0 (var_alias ++ "_interior_feats")
        (.val (.jstr s)))
  let nearest_tup ←
    if nfr.isEmpty then
      pure (AttrTup.mk identifier 0 (var_alias ++ "_nearest_feats")
        (.val .jnull))
    else do
      let s ← trim_nearest_feats ⟨nfr.map proxRowFeature,
        Int.ofNat (nearest_popped o var_gdf),
        cutoffJVal (nearest_cutoff o var_gdf)⟩
      pure (AttrTup.mk identifier 0 (var_alias ++ "_nearest_feats")
        (.val (.jstr s)))
  pure [interior_tup, nearest_tup]

/-- Embedding of _nearest_feats_analysis: the empty-input early return writes
both tuples as null (nearest first, as the source does); otherwise the body
runs, and if it raises the outer except writes both tuples (nearest first)
with the exception payload. -/
def nearest_feats_analysis (o : ProxOracles) (identifier var_alias : String)
    (included_fields : List String) (var_gdf : List VarFeat) : List AttrTup :=
  if var_gdf.length < 1 then
    [⟨identifier, 0, var_alias ++ "_nearest_feats", .val .jnull⟩,
     ⟨identifier, 0, var_alias ++ "_interior_feats", .val .jnull⟩]
  else
    match nearest_feats_body o identifier var_alias included_fields var_gdf with
    | some attr_tups => attr_tups
    | none =>
      [⟨identifier, 0, var_alias ++ "_nearest_feats", .exc "UnboundLocalError"⟩,
       ⟨identifier, 0, var_alias ++ "_interior_feats", .exc "UnboundLocalError"⟩]

/-- Oracles of the C8 counterexample: one candidate, interior, two miles from
the fire edge. -/
def exProx : ProxOracles :=
  ⟨fun _ => true, fun _ => 160934 / 50, fun _ => ⟨0, 0⟩, fun _ => ⟨0, 0⟩,
   fun _ _ => 0, fun _ => "59° 58.646' N", fun _ => "154° 52.766' W"⟩

/-! ## The analysis scheduler wave (src/process/analysis.py,
gather_results): a transition-system model of one wave of worker processes,
the bounded shared result channel, and the drain-before-join loop. -/

/-- One worker process of a wave: still pushing the chunks of its result
payload onto the channel, or exited. A payload larger than the channel's
buffering capacity crosses it in several chunks. -/
inductive WorkerState where
  | pending (chunks : List Nat) : WorkerState
  | exited : WorkerState
deriving DecidableEq, Repr

/-- The items a worker still has to push. -/
def workerItems : WorkerState → List Nat
  | .pending chunks => chunks
  | .exited => []

/-- The state of one scheduler wave: the workers, the shared channel (FIFO,
bounded by the capacity of the step relation), the results collected so far,
and whether the scheduler has passed the break condition and joined. -/
structure SchedState where
  workers : List WorkerState
  chan : List Nat
  collected : List Nat
  joined : Bool
deriving DecidableEq, Repr

/-- Everything in flight: collected results, channel contents, and what the
workers still have to push. -/
def allItems (s : SchedState) : List Nat :=
  s.collected ++ s.chan ++ (s.workers.map workerItems).flatten

/-- The interleaved steps of one wave with channel capacity cap, mirroring
the loop of gather_results: a worker pushes one chunk when the channel has
room (and blocks otherwise); a worker with nothing left exits; the scheduler
drains one item non-blockingly; and the scheduler breaks out to join only
when every worker has exited and the channel is confirmed empty. -/
inductive SchedStep (cap : Nat) : SchedState → SchedState → Prop where
  | push (s : SchedState) (ws1 ws2 : List WorkerState) (c : Nat)
      (rest : List Nat)
      (hw : s.workers = ws1 ++ .pending (c :: rest) :: ws2)
      (hcap : s.chan.length < cap)
      (hj : s.joined = false) :
      SchedStep cap s
        ⟨ws1 ++ .pending rest :: ws2, s.chan ++ [c], s.collected, false⟩
  | exit (s : SchedState) (ws1 ws2 : List WorkerState)
      (hw : s.workers = ws1 ++ .pending [] :: ws2)
      (hj : s.joined = false) :
      SchedStep cap s ⟨ws1 ++ .exited :: ws2, s.chan, s.collected, false⟩
  | drain (s : SchedState) (c : Nat) (rest : List Nat)
      (hc : s.chan = c :: rest)
      (hj : s.joined = false) :
      SchedStep cap s ⟨s.workers, rest, s.collected ++ [c], false⟩
  | finish (s : SchedState)
      (hall : ∀ w ∈ s.workers, w = .exited)
      (hchan : s.chan = [])
      (hj : s.joined = false) :
      SchedStep cap s ⟨s.workers, [], s.collected, true⟩

/-!
### End of definitions, start of the theorem zone
All definitions for the claims appear above; helper lemmas, claim theorems,
counterexamples and witnesses appear below.
-/

theorem strJoin_length (l : List String) :
    (strJoin l).length = (l.map String.length).sum := by
  induction l with
  | nil => rfl
  | cons s rest ih => simp [strJoin, String.length_append, ih]

theorem jsonStr_exPad_length : (jsonStr exPad).length = 4858 := by
  have hx : jsonEscapeChar 'x' = "x" := by decide
  have hdata : exPad.data = List.replicate 4856 'x' := rfl
  rw [jsonStr, String.length_append, String.length_append, hdata,
    List.map_replicate, hx, strJoin_length, List.map_replicate,
    List.sum_replicate]
  decide

theorem big_int_repr_length : (serJVal (JVal.jint (-(10 : Int) ^ 60))).length = 62 := by
  decide

theorem serFeature_exF0_length : (serFeature exF0).length = 4942 := by
  have h1 : (jsonStr "dist_mi").length = 9 := by decide
  have h3 : (jsonStr "pad").length = 5 := by decide
  rw [serFeature]
  simp only [exF0, List.map_cons, List.map_nil, strJoin, String.length_append]
  rw [h1, h3, big_int_repr_length]
  have h4 : (serJVal (JVal.jstr exPad)).length = 4858 := jsonStr_exPad_length
  rw [h4]
  decide

theorem serFeature_exF1_length : (serFeature exF1).length = 14 := by decide

theorem cand0_eq : trimCandidate exFset 0 = ⟨[], 3, .jint 0⟩ := rfl

theorem cand1_eq : trimCandidate exFset 1 = ⟨[exF0], 2, .jint (-(10 : Int) ^ 60)⟩ := rfl

theorem cand2_eq : trimCandidate exFset 2 = ⟨[exF0, exF1], 1, .jint 0⟩ := rfl

theorem len_cand0 : (serCandidate exFset 0).length = 42 := by
  rw [serCandidate, cand0_eq]; decide

theorem len_cand1 : (serCandidate exFset 1).length = 5045 := by
  rw [serCandidate, cand1_eq, serFset, serFeatureList]
  simp only [List.map_cons, List.map_nil, strInter, String.length_append]
  rw [serFeature_exF0_length, big_int_repr_length]
  decide

theorem len_cand2 : (serCandidate exFset 2).length = 5000 := by
  rw [serCandidate, cand2_eq, serFset, serFeatureList]
  simp only [List.map_cons, List.map_nil, strInter, String.length_append]
  rw [serFeature_exF0_length, serFeature_exF1_length]
  decide

theorem len_full : (serFset exFset).length = 5019 := by
  rw [serFset, serFeatureList]
  simp only [exFset, List.map_cons, List.map_nil, strInter, String.length_append]
  rw [serFeature_exF0_length, serFeature_exF1_length]
  decide

theorem trimLoop_exFset : trimLoop exFset 0 3 none = some (serCandidate exFset 0) := by
  have l1 : ((serCandidate exFset 1).length ≤ 5000) = False := by
    simp [len_cand1]
  have l0 : ((serCandidate exFset 0).length ≤ 5000) = True := by
    simp [len_cand0]
  simp [trimLoop, l1, l0]

theorem trim_exFset : trim_nearest_feats exFset = some (serCandidate exFset 0) := by
  rw [trim_nearest_feats]
  have : ¬ (serFset exFset).length ≤ 5000 := by rw [len_full]; norm_num
  simp only [this, if_false, ite_false]
  have : exFset.features.length = 3 := rfl
  rw [this, trimLoop_exFset]

theorem serCandidate_self (fs : NearestFset) :
    serCandidate fs fs.features.length = serFset fs := by
  have h1 : trimCandidate fs fs.features.length = fs := by
    simp [trimCandidate, trimCutoff, List.take_length]
  rw [serCandidate, h1]

theorem trimLoop_sound (fs : NearestFset) (low high : Nat) (best : Option String) :
    high ≤ fs.features.length →
    (∀ b, best = some b →
      b.length ≤ 5000 ∧ ∃ m, m ≤ fs.features.length ∧ b = serCandidate fs m) →
    ∀ s, trimLoop fs low high best = some s →
      s.length ≤ 5000 ∧ ∃ m, m ≤ fs.features.length ∧ s = serCandidate fs m := by
  induction low, high, best using trimLoop.induct fs with
  | case1 low high best hlt mid test_serialized hfits ih =>
    intro hhigh hbest s hs
    rw [trimLoop, dif_pos hlt] at hs
    simp only [hfits, if_true, if_pos] at hs
    refine ih ?_ ?_ s hs
    · exact hhigh
    · intro b hb
      injection hb with hb
      subst hb
      constructor
      · exact hfits
      · refine ⟨(low + high) / 2, ?_, rfl⟩
        omega
  | case2 low high best hlt mid test_serialized hfits ih =>
    intro hhigh hbest s hs
    rw [trimLoop, dif_pos hlt] at hs
    simp only [hfits, if_false, ite_false] at hs
    refine ih ?_ hbest s hs
    omega
  | case3 low high best hlt =>
    intro hhigh hbest s hs
    rw [trimLoop, dif_neg hlt] at hs
    exact hbest s hs

/-- Claim C3, counterexample: for the concrete ordered feature list exFset the
full serialization and the candidate at prefix length 1 both exceed the 5000
budget, the candidate at prefix length 2 fits it, yet the binary search
returns the serialization of the empty prefix (42 characters) — not the
serialization of the maximum-length prefix whose candidate fits. -/
theorem C3_counterexample :
    trim_nearest_feats exFset = some (serCandidate exFset 0) ∧
    (serCandidate exFset 0).length = 42 ∧
    (serCandidate exFset 2).length = 5000 ∧
    (serCandidate exFset 1).length = 5045 ∧
    serCandidate exFset 3 = serFset exFset ∧
    (serFset exFset).length = 5019 :=
  ⟨trim_exFset, len_cand0, len_cand2, len_cand1, serCandidate_self exFset, len_full⟩

/-- Claim C3, amended: when the full serialization fits in 5000 characters it
is returned unchanged; otherwise, whenever the binary search returns a string,
that string is the serialization of some prefix-candidate object (with the
popped and cutoff fields described by the claim) and its length is at most
5000 — but it is not always the maximum-length fitting prefix. -/
theorem C3_trim_budget (fs : NearestFset) (s : String)
    (h : trim_nearest_feats fs = some s) :
    s.length ≤ 5000 ∧
    ((serFset fs).length ≤ 5000 → s = serFset fs) ∧
    ∃ m, m ≤ fs.features.length ∧ s = serCandidate fs m := by
  rw [trim_nearest_feats] at h
  by_cases hfit : (serFset fs).length ≤ 5000
  · simp only [hfit, if_true, ite_true, Option.some_inj] at h
    subst h
    exact ⟨hfit, fun _ => rfl,
      ⟨fs.features.length, le_refl _, (serCandidate_self fs).symm⟩⟩
  · simp only [hfit, if_false, ite_false] at h
    have hmain := trimLoop_sound fs 0 fs.features.length none (le_refl _)
      (by intro b hb; cases hb) s h
    exact ⟨hmain.1, fun hc => absurd hc hfit, hmain.2⟩

/-- Witness for C3_trim_budget at a concrete small feature set. -/
theorem C3_trim_budget_witness :
    (serFset ⟨[exF1], 5, JVal.jnull⟩).length ≤ 5000 ∧
    ((serFset ⟨[exF1], 5, JVal.jnull⟩).length ≤ 5000 →
      serFset ⟨[exF1], 5, JVal.jnull⟩ = serFset ⟨[exF1], 5, JVal.jnull⟩) ∧
    ∃ m, m ≤ (NearestFset.mk [exF1] 5 JVal.jnull).features.length ∧
      serFset ⟨[exF1], 5, JVal.jnull⟩ = serCandidate ⟨[exF1], 5, JVal.jnull⟩ m :=
  C3_trim_budget ⟨[exF1], 5, .jnull⟩ (serFset ⟨[exF1], 5, .jnull⟩) (by decide)

theorem insertDesc_perm (kv : String × ℚ) (l : List (String × ℚ)) :
    (insertDesc kv l).Perm (kv :: l) := by
  induction l with
  | nil => exact List.Perm.refl _
  | cons y ys ih =>
    rw [insertDesc]
    by_cases h : y.2 ≤ kv.2
    · simp [h]
    · simp only [h, if_false, ite_false]
      exact ((ih.cons y).trans (List.Perm.swap kv y ys))

theorem sortDesc_perm (l : List (String × ℚ)) : (sortDesc l).Perm l := by
  induction l with
  | nil => exact List.Perm.refl _
  | cons kv rest ih =>
    exact (insertDesc_perm kv (sortDesc rest)).trans (ih.cons kv)

theorem insertDesc_sorted (kv : String × ℚ) (l : List (String × ℚ))
    (h : l.Pairwise (fun x y => y.2 ≤ x.2)) :
    (insertDesc kv l).Pairwise (fun x y => y.2 ≤ x.2) := by
  induction l with
  | nil => simp [insertDesc]
  | cons y ys ih =>
    rw [insertDesc]
    rcases List.pairwise_cons.mp h with ⟨hy, hys⟩
    by_cases hc : y.2 ≤ kv.2
    · rw [if_pos hc]
      refine List.pairwise_cons.mpr ⟨?_, h⟩
      intro z hz
      rcases List.mem_cons.mp hz with hz | hz
      · exact hz ▸ hc
      · exact le_trans (hy z hz) hc
    · simp only [hc, if_false, ite_false]
      refine List.pairwise_cons.mpr ⟨?_, ih hys⟩
      intro z hz
      have hz' := (insertDesc_perm kv ys).mem_iff.mp hz
      rcases List.mem_cons.mp hz' with hz' | hz'
      · exact hz' ▸ le_of_lt (lt_of_not_le hc)
      · exact hy z hz'

theorem sortDesc_sorted (l : List (String × ℚ)) :
    (sortDesc l).Pairwise (fun x y => y.2 ≤ x.2) := by
  induction l with
  | nil => simp [sortDesc]
  | cons kv rest ih => exact insertDesc_sorted kv (sortDesc rest) ih

theorem serAttrJson_nil_length (serV : ℚ → String) :
    (serAttrJson serV []).length = 2 := rfl

theorem popLoop_sound (serV : ℚ → String) (max_length : Nat)
    (h2 : 2 ≤ max_length) (l : List (String × ℚ)) :
    ∃ k, k ≤ l.length ∧
      popLoop serV max_length l = some (serAttrJson serV (l.take k)) ∧
      (serAttrJson serV (l.take k)).length ≤ max_length := by
  induction l using popLoop.induct serV max_length with
  | case1 hgt =>
    rw [serAttrJson_nil_length] at hgt
    omega
  | case2 y ys hgt ih =>
    rcases ih with ⟨k, hk, hres, hlen⟩
    have htake : (y :: ys).dropLast.take k = (y :: ys).take k := by
      rw [List.dropLast_eq_take, List.take_take]
      congr 1
      simp only [List.length_cons] at hk ⊢
      rw [List.length_dropLast, List.length_cons] at hk
      omega
    refine ⟨k, ?_, ?_, ?_⟩
    · rw [List.length_dropLast] at hk
      omega
    · rw [popLoop.eq_def, if_pos hgt]
      show popLoop serV max_length (y :: ys).dropLast = _
      rw [hres, htake]
    · rw [← htake]
      exact hlen
  | case3 x hle =>
    refine ⟨x.length, le_refl _, ?_, ?_⟩
    · rw [popLoop.eq_def, if_neg hle, List.take_length]
    · rw [List.take_length]
      omega

/-- Claim C10: every grouped-attribute dict is serialized with its pairs
ordered by value in descending order (Python stable sort), pairs are removed
one at a time from the smallest-valued end while the serialized length
exceeds max_length, so the result's length is at most max_length and the
retained entries are a longest-kept prefix of the descending-sorted pairs
(the largest-valued ones). Any max_length of at least 2 terminates; the call
sites use the default 5000. -/
theorem C10_sort_trim_attr_json (serV : ℚ → String)
    (attr_json : List (String × ℚ)) (max_length : Nat) (h2 : 2 ≤ max_length) :
    (sortDesc attr_json).Pairwise (fun x y => y.2 ≤ x.2) ∧
    (sortDesc attr_json).Perm attr_json ∧
    ∃ k, k ≤ (sortDesc attr_json).length ∧
      sort_trim_attr_json serV attr_json max_length =
        some (serAttrJson serV ((sortDesc attr_json).take k)) ∧
      (serAttrJson serV ((sortDesc attr_json).take k)).length ≤ max_length := by
  refine ⟨sortDesc_sorted attr_json, sortDesc_perm attr_json, ?_⟩
  rw [sort_trim_attr_json]
  exact popLoop_sound serV max_length h2 (sortDesc attr_json)

/-- Witness for C10_sort_trim_attr_json at a concrete two-entry dict and the
default budget 5000. -/
theorem C10_sort_trim_attr_json_witness :
    (sortDesc [("a", (1 : ℚ)), ("b", 3)]).Pairwise (fun x y => y.2 ≤ x.2) ∧
    (sortDesc [("a", (1 : ℚ)), ("b", 3)]).Perm [("a", 1), ("b", 3)] ∧
    ∃ k, k ≤ (sortDesc [("a", (1 : ℚ)), ("b", 3)]).length ∧
      sort_trim_attr_json ratRepr2 [("a", 1), ("b", 3)] 5000 =
        some (serAttrJson ratRepr2 ((sortDesc [("a", (1 : ℚ)), ("b", 3)]).take k)) ∧
      (serAttrJson ratRepr2 ((sortDesc [("a", (1 : ℚ)), ("b", 3)]).take k)).length ≤ 5000 :=
  C10_sort_trim_attr_json ratRepr2 [("a", 1), ("b", 3)] 5000 (by norm_num)

theorem map_ite_list {α β : Type} (f : α → β) (c : Prop) [Decidable c] (a : α) :
    (if c then [a] else []).map f = if c then [f a] else [] := by
  split <;> rfl

theorem batch_write_names (identifier : String) (buf_dist : Nat)
    (var_alias : String) (analysis_types : AnalysisTypes) (value : AttrVal) :
    (batch_write_attr_tups identifier buf_dist var_alias analysis_types
      value).map AttrTup.attrName = batch_attr_names var_alias analysis_types := by
  simp only [batch_write_attr_tups, batch_attr_names, List.map_append,
    map_ite_list, List.map_map]
  rfl

theorem batch_write_mem (identifier : String) (buf_dist : Nat)
    (var_alias : String) (analysis_types : AnalysisTypes) (value : AttrVal) :
    ∀ t ∈ batch_write_attr_tups identifier buf_dist var_alias analysis_types
      value, t.irwin = identifier ∧ t.buf_dist = buf_dist ∧ t.attrVal = value := by
  intro t ht
  simp only [batch_write_attr_tups, List.mem_append, List.mem_map,
    List.mem_ite_nil_right, List.mem_singleton] at ht
  rcases ht with ((((((⟨_, h⟩ | ⟨_, h⟩) | ⟨_, h⟩) | ⟨f, _, h⟩) | ⟨f, _, h⟩) |
    ⟨f, _, h⟩) | ⟨f, _, h⟩) <;> subst h <;> exact ⟨rfl, rfl, rfl⟩

theorem batch_write_filter_self (identifier : String) (r : Nat)
    (var_alias : String) (analysis_types : AnalysisTypes) (value : AttrVal) :
    (batch_write_attr_tups identifier r var_alias analysis_types value).filter
      (fun t => t.buf_dist = r) =
      batch_write_attr_tups identifier r var_alias analysis_types value := by
  rw [List.filter_eq_self]
  intro t ht
  have := (batch_write_mem identifier r var_alias analysis_types value t ht).2.1
  simp [this]

theorem batch_write_filter_ne (identifier : String) (r : Nat)
    (var_alias : String) (analysis_types : AnalysisTypes) (value : AttrVal)
    (b : Nat) (hb : b ≠ r) :
    (batch_write_attr_tups identifier r var_alias analysis_types value).filter
      (fun t => t.buf_dist = b) = [] := by
  rw [List.filter_eq_nil_iff]
  intro t ht
  have := (batch_write_mem identifier r var_alias analysis_types value t ht).2.1
  simp [this]
  omega

theorem errorComplement_expand (identifier var_alias : String)
    (analysis_types : AnalysisTypes) (value : AttrVal) :
    errorComplement identifier var_alias analysis_types value =
      [batch_write_attr_tups identifier 0 var_alias analysis_types value,
       batch_write_attr_tups identifier 1 var_alias analysis_types value,
       batch_write_attr_tups identifier 3 var_alias analysis_types value,
       batch_write_attr_tups identifier 5 var_alias analysis_types value ++
         (if analysis_types.nearest_feats_fields.isSome then
           [⟨identifier, 0, var_alias ++ "_nearest_feats", value⟩,
            ⟨identifier, 0, var_alias ++ "_interior_feats", value⟩]
          else [])] := by
  simp only [errorComplement, List.map_cons, List.map_nil]
  norm_num
  split <;> simp

theorem errorComplement_ne_nil (identifier var_alias : String)
    (analysis_types : AnalysisTypes) (value : AttrVal) :
    errorComplement identifier var_alias analysis_types value ≠ [] := by
  rw [errorComplement_expand]
  simp

theorem errorComplement_vals (identifier var_alias : String)
    (analysis_types : AnalysisTypes) (value : AttrVal) :
    ∀ t ∈ (errorComplement identifier var_alias analysis_types value).flatten,
      t.irwin = identifier ∧ t.attrVal = value := by
  intro t ht
  rw [errorComplement_expand] at ht
  rcases List.mem_flatten.mp ht with ⟨l, hl, htl⟩
  simp only [List.mem_cons, List.not_mem_nil, or_false] at hl
  rcases hl with h | h | h | h <;> subst h
  · have := batch_write_mem identifier 0 var_alias analysis_types value t htl
    exact ⟨this.1, this.2.2⟩
  · have := batch_write_mem identifier 1 var_alias analysis_types value t htl
    exact ⟨this.1, this.2.2⟩
  · have := batch_write_mem identifier 3 var_alias analysis_types value t htl
    exact ⟨this.1, this.2.2⟩
  · rcases List.mem_append.mp htl with h5 | hex
    · have := batch_write_mem identifier 5 var_alias analysis_types value t h5
      exact ⟨this.1, this.2.2⟩
    · rcases List.mem_ite_nil_right.mp hex with ⟨_, hex⟩
      rcases List.mem_cons.mp hex with h | h
      · subst h; exact ⟨rfl, rfl⟩
      · simp only [List.mem_singleton] at h
        subst h; exact ⟨rfl, rfl⟩

theorem errorComplement_level_names (identifier var_alias : String)
    (d : AnalysisTypes) (value : AttrVal) (b : Nat)
    (hb : b = 0 ∨ b = 1 ∨ b = 3 ∨ b = 5) :
    (((errorComplement identifier var_alias d value).flatten).filter
      (fun t => t.buf_dist = b)).map AttrTup.attrName =
    batch_attr_names var_alias d ++
      (if b = 0 ∧ d.nearest_feats_fields.isSome then
        [var_alias ++ "_nearest_feats", var_alias ++ "_interior_feats"]
       else []) := by
  rw [errorComplement_expand]
  simp only [List.flatten_cons, List.flatten_nil, List.append_nil,
    List.filter_append]
  rcases hb with rfl | rfl | rfl | rfl
  · rw [batch_write_filter_self,
      batch_write_filter_ne identifier 1 var_alias d value 0 (by norm_num),
      batch_write_filter_ne identifier 3 var_alias d value 0 (by norm_num),
      batch_write_filter_ne identifier 5 var_alias d value 0 (by norm_num)]
    by_cases hn : d.nearest_feats_fields.isSome
    · simp [hn, batch_write_names, List.filter]
    · simp [hn, batch_write_names]
  · rw [batch_write_filter_self,
      batch_write_filter_ne identifier 0 var_alias d value 1 (by norm_num),
      batch_write_filter_ne identifier 3 var_alias d value 1 (by norm_num),
      batch_write_filter_ne identifier 5 var_alias d value 1 (by norm_num)]
    by_cases hn : d.nearest_feats_fields.isSome
    · simp [hn, batch_write_names, List.filter]
    · simp [hn, batch_write_names]
  · rw [batch_write_filter_self,
      batch_write_filter_ne identifier 0 var_alias d value 3 (by norm_num),
      batch_write_filter_ne identifier 1 var_alias d value 3 (by norm_num),
      batch_write_filter_ne identifier 5 var_alias d value 3 (by norm_num)]
    by_cases hn : d.nearest_feats_fields.isSome
    · simp [hn, batch_write_names, List.filter]
    · simp [hn, batch_write_names]
  · rw [batch_write_filter_self,
      batch_write_filter_ne identifier 0 var_alias d value 5 (by norm_num),
      batch_write_filter_ne identifier 1 var_alias d value 5 (by norm_num),
      batch_write_filter_ne identifier 3 var_alias d value 5 (by norm_num)]
    by_cases hn : d.nearest_feats_fields.isSome
    · simp [hn, batch_write_names, List.filter]
    · simp [hn, batch_write_names]

/-- Claim C1 (amended): for every (fire, dataset) outcome the classifier
either routes a non-empty analyzable feature list, or emits the complete
attribution-tuple complement its directive would produce (one batch per ring
level, each batch attribute at each of 0, 1, 3 and 5, plus the ring-0
nearest/interior pair when the directive requests it) — never both; and it
emits neither exactly when the payload is a non-empty feature collection
whose first feature lacks a geometry key, which the code drops silently. -/
theorem C1_classification (plan : String → AnalysisTypes)
    (identifier var_alias : String) (data : QueryData) (out : ClassifyOut)
    (h : classifyResponse plan (.ok identifier var_alias data) = some out) :
    (out.query_features = [] ∨ out.results_no_analysis = []) ∧
    (out.query_features ≠ [] →
      ∃ fs, fs ≠ [] ∧ out.query_features = [(identifier, var_alias, fs)]) ∧
    (out.results_no_analysis ≠ [] →
      ∃ v, out.results_no_analysis =
          errorComplement identifier var_alias (plan var_alias) v ∧
        ∀ b, b = 0 ∨ b = 1 ∨ b = 3 ∨ b = 5 →
          ((out.results_no_analysis.flatten).filter
            (fun t => t.buf_dist = b)).map AttrTup.attrName =
          batch_attr_names var_alias (plan var_alias) ++
            (if b = 0 ∧ (plan var_alias).nearest_feats_fields.isSome then
              [var_alias ++ "_nearest_feats", var_alias ++ "_interior_feats"]
             else [])) ∧
    ((out.query_features = [] ∧ out.results_no_analysis = []) ↔
      ∃ obj sample rest, data = .payload obj ∧
        ¬((obj.lookup "error").isSome ∧ obj.length = 1) ∧
        obj.lookup "features" = some (.feats (sample :: rest)) ∧
        sample.has_geometry = false) := by
  cases data with
  | excReduction info =>
    simp only [classifyResponse, Option.some_inj] at h
    subst h
    refine ⟨Or.inl rfl, by simp, ?_, ?_⟩
    · intro _
      exact ⟨.val (.jstr "!EXCEPTION!"), rfl, fun b hb =>
        errorComplement_level_names identifier var_alias (plan var_alias) _ b hb⟩
    · constructor
      · intro ⟨_, hnil⟩
        exact absurd hnil (errorComplement_ne_nil _ _ _ _)
      · rintro ⟨obj, sample, rest, hdata, -⟩
        cases hdata
  | payload obj =>
    simp only [classifyResponse] at h
    by_cases herr : (obj.lookup "error").isSome ∧ obj.length = 1
    · rw [if_pos herr, Option.some_inj] at h
      subst h
      refine ⟨Or.inl rfl, by simp, ?_, ?_⟩
      · intro _
        exact ⟨.val (.jstr "!QUERYERROR!"), rfl, fun b hb =>
          errorComplement_level_names identifier var_alias (plan var_alias) _ b hb⟩
      · constructor
        · intro ⟨_, hnil⟩
          exact absurd hnil (errorComplement_ne_nil _ _ _ _)
        · rintro ⟨obj', sample, rest, hdata, hne, -⟩
          cases hdata
          exact absurd herr hne
    · rw [if_neg herr] at h
      rcases hf : obj.lookup "features" with _ | pv
      · rw [hf] at h
        dsimp only at h
        rw [Option.some_inj] at h
        subst h
        refine ⟨Or.inl rfl, by simp, ?_, ?_⟩
        · intro _
          exact ⟨.val (.jstr "!UNEXPECTED!"), rfl, fun b hb =>
            errorComplement_level_names identifier var_alias (plan var_alias) _ b hb⟩
        · constructor
          · intro ⟨_, hnil⟩
            exact absurd hnil (errorComplement_ne_nil _ _ _ _)
          · rintro ⟨obj', sample, rest, hdata, _, hf', -⟩
            cases hdata
            rw [hf] at hf'
            cases hf'
      · cases pv with
        | other =>
          rw [hf] at h
          simp at h
        | feats fs =>
          rw [hf] at h
          cases fs with
          | nil =>
            dsimp only at h
            rw [Option.some_inj] at h
            subst h
            refine ⟨Or.inl rfl, by simp, ?_, ?_⟩
            · intro _
              exact ⟨.val .jnull, rfl, fun b hb =>
                errorComplement_level_names identifier var_alias (plan var_alias) _ b hb⟩
            · constructor
              · intro ⟨_, hnil⟩
                exact absurd hnil (errorComplement_ne_nil _ _ _ _)
              · rintro ⟨obj', sample, rest, hdata, _, hf', -⟩
                cases hdata
                rw [hf] at hf'
                cases hf'
          | cons sample_feature fs' =>
            dsimp only at h
            by_cases hg1 : sample_feature.has_geometry = true ∧
                sample_feature.has_rings = true
            · rw [if_pos hg1, Option.some_inj] at h
              subst h
              refine ⟨Or.inr rfl, ?_, by simp, ?_⟩
              · intro _
                exact ⟨sample_feature :: fs', by simp, rfl⟩
              · constructor
                · intro ⟨hnil, _⟩
                  cases hnil
                · rintro ⟨obj', sample, rest, hdata, _, hf', hgeom⟩
                  cases hdata
                  rw [hf] at hf'
                  cases hf'
                  rw [hg1.1] at hgeom
                  cases hgeom
            · rw [if_neg hg1] at h
              by_cases hg2 : sample_feature.has_geometry = true
              · rw [if_pos hg2, Option.some_inj] at h
                subst h
                refine ⟨Or.inr rfl, ?_, by simp, ?_⟩
                · intro _
                  exact ⟨sample_feature :: fs', by simp, rfl⟩
                · constructor
                  · intro ⟨hnil, _⟩
                    cases hnil
                  · rintro ⟨obj', sample, rest, hdata, _, hf', hgeom⟩
                    cases hdata
                    rw [hf] at hf'
                    cases hf'
                    rw [hg2] at hgeom
                    cases hgeom
              · rw [if_neg hg2, Option.some_inj] at h
                subst h
                refine ⟨Or.inl rfl, by simp, by simp, ?_⟩
                constructor
                · intro _
                  refine ⟨obj, sample_feature, fs', rfl, herr, hf, ?_⟩
                  simpa using hg2
                · intro _
                  exact ⟨rfl, rfl⟩

/-- Claim C1, counterexample: a non-empty feature collection whose first
feature lacks a geometry key yields neither an analyzable routed subset nor
any attribution tuple (and not even a log entry), although the complete
complement for its directive is non-empty — so the classification is not
exhaustive as claimed. -/
theorem C1_counterexample :
    classifyResponse roadsPlan (.ok "F1" "roads"
      (.payload [("features", .feats [⟨false, false⟩])])) =
      some ⟨[], [], []⟩ ∧
    errorComplement "F1" "roads" (roadsPlan "roads") (.val .jnull) ≠ [] := by
  constructor
  · rfl
  · exact errorComplement_ne_nil _ _ _ _

/-- Witness for C1_classification at a concrete per-query error response. -/
theorem C1_classification_witness :
    ∃ out, classifyResponse roadsPlan (.ok "F1" "roads"
        (.payload [("error", .other)])) = some out ∧
      (out.query_features = [] ∨ out.results_no_analysis = []) := by
  refine ⟨_, rfl, ?_⟩
  exact (C1_classification roadsPlan "F1" "roads"
    (.payload [("error", .other)]) _ rfl).1

/-- Claim C5: a per-query failure never aborts the batch — classification of
a response list is the concatenation of classifying its parts, so sibling
outcomes are unaffected — and for the failed pair the classifier emits the
complete complement with every tuple carrying !QUERYERROR! (each batch
attribute once at each ring level 0, 1, 3, 5); in particular a query failure
for alias roads with directive TOTAL_LENGTH_FT yields exactly the four
ring-level tuples with value !QUERYERROR!. -/
theorem C5_query_failure_isolation :
    (∀ (plan : String → AnalysisTypes) (xs ys : List QueryResponse) ox oy,
      handle_query_responses plan xs = some ox →
      handle_query_responses plan ys = some oy →
      handle_query_responses plan (xs ++ ys) =
        some ⟨ox.query_features ++ oy.query_features,
          ox.results_no_analysis ++ oy.results_no_analysis,
          ox.logs ++ oy.logs⟩) ∧
    (∀ (plan : String → AnalysisTypes) (identifier var_alias : String)
      (obj : List (String × PVal)),
      ((obj.lookup "error").isSome ∧ obj.length = 1) →
      classifyResponse plan (.ok identifier var_alias (.payload obj)) =
        some ⟨[], errorComplement identifier var_alias (plan var_alias)
          (.val (.jstr "!QUERYERROR!")), [("error", "query_error_info")]⟩ ∧
      (∀ t ∈ (errorComplement identifier var_alias (plan var_alias)
          (.val (.jstr "!QUERYERROR!"))).flatten,
        t.irwin = identifier ∧ t.attrVal = .val (.jstr "!QUERYERROR!")) ∧
      (∀ b, b = 0 ∨ b = 1 ∨ b = 3 ∨ b = 5 →
        (((errorComplement identifier var_alias (plan var_alias)
            (.val (.jstr "!QUERYERROR!"))).flatten).filter
          (fun t => t.buf_dist = b)).map AttrTup.attrName =
        batch_attr_names var_alias (plan var_alias) ++
          (if b = 0 ∧ (plan var_alias).nearest_feats_fields.isSome then
            [var_alias ++ "_nearest_feats", var_alias ++ "_interior_feats"]
           else []))) ∧
    (handle_query_responses roadsPlan
        [.ok "F2" "roads" (.payload [("error", .other)])] =
      some ⟨[],
        [[⟨"F2", 0, "roads_total_feet", .val (.jstr "!QUERYERROR!")⟩],
         [⟨"F2", 1, "roads_total_feet", .val (.jstr "!QUERYERROR!")⟩],
         [⟨"F2", 3, "roads_total_feet", .val (.jstr "!QUERYERROR!")⟩],
         [⟨"F2", 5, "roads_total_feet", .val (.jstr "!QUERYERROR!")⟩]],
        [("error", "query_error_info")]⟩) := by
  refine ⟨?_, ?_, ?_⟩
  · intro plan xs ys ox oy hx hy
    induction xs generalizing ox with
    | nil =>
      simp only [handle_query_responses, Option.some_inj] at hx
      subst hx
      simpa [handle_query_responses] using hy
    | cons r rest ih =>
      simp only [List.cons_append]
      simp only [handle_query_responses, Option.bind_eq_bind] at hx ⊢
      cases hc : classifyResponse plan r with
      | none => rw [hc] at hx; simp at hx
      | some hr =>
        rw [hc] at hx
        simp only [Option.some_bind] at hx ⊢
        cases hrest : handle_query_responses plan rest with
        | none => rw [hrest] at hx; simp at hx
        | some orest =>
          rw [hrest] at hx
          simp only [Option.some_bind, Option.pure_def, Option.some_inj] at hx
          subst hx
          rw [ih orest hrest]
          simp [List.append_assoc]
  · intro plan identifier var_alias obj herr
    refine ⟨?_, errorComplement_vals identifier var_alias (plan var_alias) _,
      fun b hb => errorComplement_level_names identifier var_alias
        (plan var_alias) _ b hb⟩
    simp only [classifyResponse]
    rw [if_pos herr]
  · rfl

/-- Witness for C5_query_failure_isolation: its error-branch component at a
concrete failed query. -/
theorem C5_query_failure_isolation_witness :
    classifyResponse roadsPlan (.ok "F3" "roads" (.payload [("error", .other)])) =
      some ⟨[], errorComplement "F3" "roads" (roadsPlan "roads")
        (.val (.jstr "!QUERYERROR!")), [("error", "query_error_info")]⟩ :=
  (C5_query_failure_isolation.2.1 roadsPlan "F3" "roads" [("error", .other)]
    (by decide)).1

theorem map_substExc_batch (identifier : String) (buf_dist : Nat)
    (var_alias : String) (d : AnalysisTypes) (e : String) :
    (batch_write_attr_tups identifier buf_dist var_alias d (.exc e)).map
      substAnalysisError =
    batch_write_attr_tups identifier buf_dist var_alias d
      (.val (.jstr "!ANALYSISERROR!")) := by
  simp only [batch_write_attr_tups, List.map_append, map_ite_list,
    List.map_map]
  rfl

/-- Claim C2: whatever the oracles do, _analyze_poly_var emits exactly one
tuple per attribute of its (polygon) directive — the same complement
batch_write_attr_tups would write — for the right fire and ring; and when the
unit raises (the outer except), every tuple carries the exception payload,
which parse_analysis_errors then rewrites to a complete !ANALYSISERROR!
complement, never a partial set. -/
theorem C2_worker_failure_complement (identifier : String) (buf_dist : Nat)
    (var_alias : String) (d : AnalysisTypes) (pre : Except String Nat)
    (comp : String → CompOut)
    (hpoly : d.total_length_ft = false ∧ d.length_ft_sum_fields = []) :
    ((analyze_poly_var identifier buf_dist var_alias d pre comp).map
      AttrTup.attrName = batch_attr_names var_alias d) ∧
    (∀ t ∈ analyze_poly_var identifier buf_dist var_alias d pre comp,
      t.irwin = identifier ∧ t.buf_dist = buf_dist) ∧
    (∀ e, pre = .error e →
      analyze_poly_var identifier buf_dist var_alias d pre comp =
        batch_write_attr_tups identifier buf_dist var_alias d (.exc e) ∧
      parse_analysis_errors
          [batch_write_attr_tups identifier buf_dist var_alias d (.exc e)] =
        [batch_write_attr_tups identifier buf_dist var_alias d
          (.val (.jstr "!ANALYSISERROR!"))]) := by
  refine ⟨?_, ?_, ?_⟩
  · cases pre with
    | error e => exact batch_write_names identifier buf_dist var_alias d (.exc e)
    | ok n =>
      by_cases hn : n < 1
      · simp only [analyze_poly_var, if_pos hn]
        exact batch_write_names identifier buf_dist var_alias d _
      · simp only [analyze_poly_var, if_neg hn, batch_attr_names,
          List.map_append, map_ite_list, List.map_map, hpoly.1, hpoly.2,
          Bool.false_eq_true, if_false, List.map_nil, ite_false]
        simp [Function.comp_def]
  · intro t ht
    cases pre with
    | error e =>
      have := batch_write_mem identifier buf_dist var_alias d (.exc e) t ht
      exact ⟨this.1, this.2.1⟩
    | ok n =>
      by_cases hn : n < 1
      · simp only [analyze_poly_var, if_pos hn] at ht
        have := batch_write_mem identifier buf_dist var_alias d _ t ht
        exact ⟨this.1, this.2.1⟩
      · simp only [analyze_poly_var, if_neg hn, List.mem_append,
          List.mem_map, List.mem_ite_nil_right, List.mem_singleton] at ht
        rcases ht with ((((⟨_, h⟩ | ⟨_, h⟩) | ⟨f, _, h⟩) | ⟨f, _, h⟩) |
          ⟨f, _, h⟩) <;> subst h <;> exact ⟨rfl, rfl⟩
  · intro e he
    subst he
    refine ⟨rfl, ?_⟩
    simp only [parse_analysis_errors, List.map_cons, List.map_nil,
      map_substExc_batch]

/-- Witness for C2_worker_failure_complement: a concrete raising unit over
the roads directive. -/
theorem C2_worker_failure_complement_witness :
    (analyze_poly_var "F4" 3 "parcels"
        ⟨true, true, false, ["own"], [], [], [], none⟩ (.error "boom")
        (fun _ => .ok .jnull)).map AttrTup.attrName =
      batch_attr_names "parcels" ⟨true, true, false, ["own"], [], [], [], none⟩ :=
  (C2_worker_failure_complement "F4" 3 "parcels"
    ⟨true, true, false, ["own"], [], [], [], none⟩ (.error "boom")
    (fun _ => .ok .jnull) (by decide)).1

/-- Claim C6, counterexample: when a worker raises, the resulting tuple
carries !ANALYSISERROR!, not !EXCEPTION!; !EXCEPTION! is produced by the
classifier for a query task that raised (a reduced-exception data slot),
where no worker is involved — so "!EXCEPTION! exactly when its worker raised"
is false on the code. -/
theorem C6_counterexample :
    parse_analysis_errors
        [[⟨"F1", 0, "roads_total_feet", .exc "worker raised"⟩]] =
      [[⟨"F1", 0, "roads_total_feet", .val (.jstr "!ANALYSISERROR!")⟩]] ∧
    (AttrVal.val (.jstr "!ANALYSISERROR!") ≠ .val (.jstr "!EXCEPTION!")) ∧
    classifyResponse roadsPlan (.ok "F1" "roads"
        (.excReduction "query task raised")) =
      some ⟨[],
        [[⟨"F1", 0, "roads_total_feet", .val (.jstr "!EXCEPTION!")⟩],
         [⟨"F1", 1, "roads_total_feet", .val (.jstr "!EXCEPTION!")⟩],
         [⟨"F1", 3, "roads_total_feet", .val (.jstr "!EXCEPTION!")⟩],
         [⟨"F1", 5, "roads_total_feet", .val (.jstr "!EXCEPTION!")⟩]],
        [("error", "exception_info")]⟩ := by
  refine ⟨rfl, by decide, rfl⟩

/-- Claim C6 (amended): within the embedded core each sentinel has a single
producer and meaning — parse_analysis_errors writes !ANALYSISERROR! exactly
for tuples whose worker raised (an exception payload in the value slot),
preserving the tuple's key fields; and a classifier tuple carries
!EXCEPTION! exactly for a reduced-exception (query task raised) outcome,
!QUERYERROR! exactly for an error payload, !UNEXPECTED! exactly for a
malformed (featureless) payload, and never !ANALYSISERROR!. -/
theorem C6_sentinel_origins :
    (∀ t : AttrTup,
      ((substAnalysisError t).attrVal = .val (.jstr "!ANALYSISERROR!") ↔
        ((∃ info, t.attrVal = .exc info) ∨
          t.attrVal = .val (.jstr "!ANALYSISERROR!"))) ∧
      (substAnalysisError t).irwin = t.irwin ∧
      (substAnalysisError t).buf_dist = t.buf_dist ∧
      (substAnalysisError t).attrName = t.attrName) ∧
    (∀ (plan : String → AnalysisTypes) (resp : QueryResponse)
      (out : ClassifyOut), classifyResponse plan resp = some out →
      ∀ t ∈ out.results_no_analysis.flatten,
        (t.attrVal = .val (.jstr "!EXCEPTION!") ↔
          ∃ identifier var_alias info,
            resp = .ok identifier var_alias (.excReduction info)) ∧
        (t.attrVal = .val (.jstr "!QUERYERROR!") ↔
          ∃ identifier var_alias obj,
            resp = .ok identifier var_alias (.payload obj) ∧
            ((obj.lookup "error").isSome ∧ obj.length = 1)) ∧
        (t.attrVal = .val (.jstr "!UNEXPECTED!") ↔
          ∃ identifier var_alias obj,
            resp = .ok identifier var_alias (.payload obj) ∧
            ¬((obj.lookup "error").isSome ∧ obj.length = 1) ∧
            obj.lookup "features" = none) ∧
        t.attrVal ≠ .val (.jstr "!ANALYSISERROR!")) := by
  constructor
  · intro t
    rcases t with ⟨i, b, n, v⟩
    cases v with
    | val v => simp [substAnalysisError]
    | exc info => simp [substAnalysisError]
  · intro plan resp out h t ht
    cases resp with
    | harnessError info =>
      simp only [classifyResponse, Option.some_inj] at h
      subst h
      simp at ht
    | ok identifier var_alias data =>
      cases data with
      | excReduction info =>
        simp only [classifyResponse, Option.some_inj] at h
        subst h
        have hv := (errorComplement_vals identifier var_alias
          (plan var_alias) _ t ht).2
        rw [hv]
        refine ⟨iff_of_true rfl ⟨identifier, var_alias, info, rfl⟩, ?_, ?_,
          by decide⟩
        · refine iff_of_false (by decide) ?_
          rintro ⟨_, _, _, hd, -⟩
          cases hd
        · refine iff_of_false (by decide) ?_
          rintro ⟨_, _, _, hd, -⟩
          cases hd
      | payload obj =>
        simp only [classifyResponse] at h
        by_cases herr : (obj.lookup "error").isSome ∧ obj.length = 1
        · rw [if_pos herr, Option.some_inj] at h
          subst h
          have hv := (errorComplement_vals identifier var_alias
            (plan var_alias) _ t ht).2
          rw [hv]
          refine ⟨?_, iff_of_true rfl ⟨identifier, var_alias, obj, rfl, herr⟩,
            ?_, by decide⟩
          · refine iff_of_false (by decide) ?_
            rintro ⟨_, _, _, hd⟩
            cases hd
          · refine iff_of_false (by decide) ?_
            rintro ⟨id', al', obj', hd, hne, -⟩
            cases hd
            exact absurd herr hne
        · rw [if_neg herr] at h
          rcases hf : obj.lookup "features" with _ | pv
          · rw [hf] at h
            dsimp only at h
            rw [Option.some_inj] at h
            subst h
            have hv := (errorComplement_vals identifier var_alias
              (plan var_alias) _ t ht).2
            rw [hv]
            refine ⟨?_, ?_,
              iff_of_true rfl ⟨identifier, var_alias, obj, rfl, herr, hf⟩,
              by decide⟩
            · refine iff_of_false (by decide) ?_
              rintro ⟨_, _, _, hd⟩
              cases hd
            · refine iff_of_false (by decide) ?_
              rintro ⟨id', al', obj', hd, hne⟩
              cases hd
              exact absurd hne herr
          · cases pv with
            | other =>
              rw [hf] at h
              simp at h
            | feats fs =>
              rw [hf] at h
              cases fs with
              | nil =>
                dsimp only at h
                rw [Option.some_inj] at h
                subst h
                have hv := (errorComplement_vals identifier var_alias
                  (plan var_alias) _ t ht).2
                rw [hv]
                refine ⟨?_, ?_, ?_, by decide⟩
                · refine iff_of_false (by decide) ?_
                  rintro ⟨_, _, _, hd⟩
                  cases hd
                · refine iff_of_false (by decide) ?_
                  rintro ⟨id', al', obj', hd, hne⟩
                  cases hd
                  exact absurd hne herr
                · refine iff_of_false (by decide) ?_
                  rintro ⟨id', al', obj', hd, _, hf'⟩
                  cases hd
                  rw [hf] at hf'
                  cases hf'
              | cons sample_feature fs' =>
                dsimp only at h
                by_cases hg1 : sample_feature.has_geometry = true ∧
                    sample_feature.has_rings = true
                · rw [if_pos hg1, Option.some_inj] at h
                  subst h
                  simp at ht
                · rw [if_neg hg1] at h
                  by_cases hg2 : sample_feature.has_geometry = true
                  · rw [if_pos hg2, Option.some_inj] at h
                    subst h
                    simp at ht
                  · rw [if_neg hg2, Option.some_inj] at h
                    subst h
                    simp at ht

/-- Witness for C6_sentinel_origins: a concrete tuple of a concrete failed
query carries !QUERYERROR! and is never the !ANALYSISERROR! sentinel. -/
theorem C6_sentinel_origins_witness :
    (AttrTup.mk "F3" 0 "roads_total_feet"
      (.val (.jstr "!QUERYERROR!"))).attrVal ≠
      .val (.jstr "!ANALYSISERROR!") :=
  (C6_sentinel_origins.2 roadsPlan
    (.ok "F3" "roads" (.payload [("error", .other)]))
    ⟨[], errorComplement "F3" "roads" (roadsPlan "roads")
      (.val (.jstr "!QUERYERROR!")), [("error", "query_error_info")]⟩ rfl
    ⟨"F3", 0, "roads_total_feet", .val (.jstr "!QUERYERROR!")⟩
    (by decide)).2.2.2

theorem paginate_loop_sound {α : Type} (result_rec_count : Nat) :
    ∀ (pages : List (PageResponse α)) (offset : Nat) (acc : List α)
      (r : PaginateResult α) (offs : List Nat),
      paginate_loop result_rec_count pages offset acc = some (r, offs) →
      (offs ≠ [] ∧
        offs = (List.range offs.length).map
          (fun i => offset + i * result_rec_count)) ∧
      (∀ p, r = .raw p → p.features = none ∧ p ∈ pages) ∧
      (∀ fs, r = .features fs →
        ∃ consumed pk unconsumed,
          pages = consumed ++ pk :: unconsumed ∧
          offs.length = consumed.length + 1 ∧
          fs = acc ++ (consumed.map (fun p => p.features.getD [])).flatten ++
            pk.features.getD [] ∧
          (∀ p ∈ consumed, p.features.isSome ∧
            p.exceededTransferLimit.isSome) ∧
          pk.exceededTransferLimit = none ∧ pk.features.isSome) := by
  intro pages
  induction pages with
  | nil => intro offset acc r offs h; cases h
  | cons p rest ih =>
    intro offset acc r offs h
    rw [paginate_loop] at h
    rcases hpf : p.features with _ | fs
    · rw [hpf] at h
      dsimp only at h
      rw [Option.some_inj, Prod.mk.injEq] at h
      obtain ⟨hr, hoffs⟩ := h
      subst hr
      subst hoffs
      refine ⟨⟨by simp, by simp [List.range_succ]⟩, ?_, ?_⟩
      · intro q hq
        rw [PaginateResult.raw.injEq] at hq
        subst hq
        exact ⟨hpf, List.mem_cons_self _ _⟩
      · intro fs hfs
        cases hfs
    · rw [hpf] at h
      dsimp only at h
      by_cases hex : p.exceededTransferLimit.isSome
      · rw [if_pos hex] at h
        rcases hrec : paginate_loop result_rec_count rest
            (offset + result_rec_count) (acc ++ fs) with _ | pr
        · rw [hrec] at h; cases h
        · rw [hrec] at h
          simp only [Option.map_some', Option.some_inj, Prod.mk.injEq] at h
          obtain ⟨hr, hoffs⟩ := h
          rcases pr with ⟨r', offs'⟩
          dsimp only at hr hoffs
          subst hr
          subst hoffs
          obtain ⟨⟨hne', hform'⟩, hraw', hfeat'⟩ :=
            ih (offset + result_rec_count) (acc ++ fs) r' offs' hrec
          refine ⟨⟨by simp, ?_⟩, ?_, ?_⟩
          · have hshift : (List.range (offs'.length + 1)).map
                (fun i => offset + i * result_rec_count) =
                offset :: (List.range offs'.length).map
                  (fun i => offset + result_rec_count + i * result_rec_count) := by
              rw [List.range_succ_eq_map, List.map_cons, List.map_map]
              congr 1
              · simp
              · apply List.map_congr_left
                intro i _
                simp only [Function.comp_apply, Nat.succ_eq_add_one]
                ring
            rw [List.length_cons, hshift, ← hform']
          · intro q hq
            obtain ⟨h1, h2⟩ := hraw' q hq
            exact ⟨h1, List.mem_cons_of_mem _ h2⟩
          · intro gs hgs
            obtain ⟨consumed, pk, unconsumed, hsplit, hlen, hfs, hcons, hk1,
              hk2⟩ := hfeat' gs hgs
            refine ⟨p :: consumed, pk, unconsumed, by simp [hsplit], ?_, ?_,
              ?_, hk1, hk2⟩
            · simp [hlen]
            · rw [hfs]
              simp [hpf, List.append_assoc]
            · intro q hq
              rcases List.mem_cons.mp hq with hq' | hq'
              · subst hq'
                exact ⟨by simp [hpf], hex⟩
              · exact hcons q hq'
      · rw [if_neg hex, Option.some_inj, Prod.mk.injEq] at h
        obtain ⟨hr, hoffs⟩ := h
        subst hr
        subst hoffs
        refine ⟨⟨by simp, by simp [List.range_succ]⟩, ?_, ?_⟩
        · intro q hq
          cases hq
        · intro gs hgs
          rw [PaginateResult.features.injEq] at hgs
          subst hgs
          refine ⟨[], p, rest, rfl, rfl, by simp [hpf], by simp, ?_,
            by simp [hpf]⟩
          simpa using hex

/-- Claim C7 (amended): whenever pagination completes, the requests were made
at offsets 0, rc, 2rc, ... where rc is the probed maxRecordCount (1000 when
unavailable); a payload lacking a features key is returned raw and as-is; and
otherwise the result is the concatenation of the consumed pages' feature
arrays, where every page before the last carried the exceededTransferLimit
key — pagination continues exactly while that key is present (even with value
false), and stops at the first response without it. -/
theorem C7_paginate {α : Type} (maxRecordCount : Option Nat)
    (pages : List (PageResponse α)) (r : PaginateResult α) (offs : List Nat)
    (h : paginate_arcgis_features maxRecordCount pages = some (r, offs)) :
    (offs ≠ [] ∧ offs = (List.range offs.length).map
      (fun i => i * maxRecordCount.getD 1000)) ∧
    (∀ p, r = .raw p → p.features = none ∧ p ∈ pages) ∧
    (∀ fs, r = .features fs →
      ∃ consumed pk unconsumed, pages = consumed ++ pk :: unconsumed ∧
        offs.length = consumed.length + 1 ∧
        fs = (consumed.map (fun p => p.features.getD [])).flatten ++
          pk.features.getD [] ∧
        (∀ p ∈ consumed, p.features.isSome ∧
          p.exceededTransferLimit.isSome) ∧
        pk.exceededTransferLimit = none ∧ pk.features.isSome) := by
  rw [paginate_arcgis_features] at h
  obtain ⟨⟨hne, hform⟩, hraw, hfeat⟩ :=
    paginate_loop_sound (maxRecordCount.getD 1000) pages 0 [] r offs h
  refine ⟨⟨hne, ?_⟩, hraw, ?_⟩
  · conv_lhs => rw [hform]
    rw [hform]
    simp only [List.length_map]
    apply List.map_congr_left
    intro i _
    omega
  · intro fs hfs
    obtain ⟨consumed, pk, unconsumed, h1, h2, h3, h4, h5, h6⟩ := hfeat fs hfs
    exact ⟨consumed, pk, unconsumed, h1, h2, by simpa using h3, h4, h5, h6⟩

/-- Claim C7, counterexample: a page carrying exceededTransferLimit with
value false has stopped signaling truncation, yet the code advances the
offset and fetches another page; the spec-worded paginator stops there. The
two return different feature collections and different request traces. -/
theorem C7_counterexample :
    paginate_arcgis_features (some 1000)
        [⟨some [1], some (.jbool false)⟩, ⟨some [2], none⟩] =
      some (.features ([1, 2] : List Nat), [0, 1000]) ∧
    paginate_spec (some 1000)
        [⟨some [1], some (.jbool false)⟩, ⟨some [2], none⟩] =
      some (.features ([1] : List Nat), [0]) ∧
    ([1, 2] : List Nat) ≠ [1] :=
  ⟨rfl, rfl, by decide⟩

/-- Witness for C7_paginate at a concrete one-page source. -/
theorem C7_paginate_witness :
    ([0] : List Nat) ≠ [] ∧
    ([0] : List Nat) = (List.range ([0] : List Nat).length).map
      (fun i => i * (some 50 : Option Nat).getD 1000) :=
  (C7_paginate (some 50) [⟨some [7], none⟩]
    (.features ([7] : List Nat)) [0] rfl).1

theorem compass_getD_mem (k : Nat) :
    compass_directions.getD k "N" ∈ compass_directions := by
  by_cases h : k < compass_directions.length
  · rw [List.getD_eq_getElem compass_directions "N" h]
    exact List.getElem_mem h
  · rw [List.getD_eq_default compass_directions "N" (by omega)]
    decide

theorem compass_getD_ne_none (k : Nat) :
    compass_directions.getD k "N" ≠ "None" := by
  intro hcontra
  have hmem := compass_getD_mem k
  rw [hcontra] at hmem
  revert hmem
  decide

/-- Claim C9: the 16-point direction function returns "None" exactly when the
two points coincide; a second point due north of the first yields "N"
(provided the angle oracle meets the math-library contract
degrees(atan2(dy, 0)) = 90 for dy > 0); and every non-coincident pair maps to
one of the sixteen compass labels computed from the bearing. -/
theorem C9_cardinal_direction (atan2_degrees : ℚ → ℚ → ℚ) (a b : QPoint)
    (hdeg : ∀ y : ℚ, 0 < y → atan2_degrees y 0 = 90) :
    (a = b → get_cardinal_direction atan2_degrees a b = "None") ∧
    (get_cardinal_direction atan2_degrees a b = "None" → a = b) ∧
    (a.x = b.x → a.y < b.y →
      get_cardinal_direction atan2_degrees a b = "N") ∧
    (a ≠ b → get_cardinal_direction atan2_degrees a b ∈ compass_directions) := by
  refine ⟨?_, ?_, ?_, ?_⟩
  · intro hab
    subst hab
    simp [get_cardinal_direction]
  · intro hnone
    rw [get_cardinal_direction] at hnone
    by_cases hco : b.x - a.x = 0 ∧ b.y - a.y = 0
    · rcases a with ⟨ax, ay⟩
      rcases b with ⟨bx, by'⟩
      simp only [QPoint.mk.injEq]
      simp only at hco
      constructor <;> linarith [hco.1, hco.2]
    · rw [if_neg hco] at hnone
      exact absurd hnone (compass_getD_ne_none _)
  · intro hx hy
    rw [get_cardinal_direction]
    have hdx : b.x - a.x = 0 := by rw [hx]; ring
    have hdy : 0 < b.y - a.y := by linarith
    rw [if_neg (by rintro ⟨-, h2⟩; linarith)]
    rw [hdx, hdeg (b.y - a.y) hdy]
    show compass_directions.getD
      ((pytrunc ((pymod ((90 : ℚ) - 90) 360 + 11.25) / 22.5)).toNat % 16)
      "N" = "N"
    have h90 : (90 : ℚ) - 90 = 0 := by norm_num
    have hm : pymod 0 360 = 0 := by
      rw [pymod]
      norm_num
    rw [h90, hm]
    have harg : ((0 : ℚ) + 11.25) / 22.5 = 1 / 2 := by norm_num
    rw [harg]
    have htr : pytrunc (1 / 2 : ℚ) = 0 := by
      rw [pytrunc, if_neg (by norm_num)]
      rw [Int.floor_eq_zero_iff]
      constructor <;> norm_num
    rw [htr]
    rfl
  · intro hab
    rw [get_cardinal_direction]
    by_cases hco : b.x - a.x = 0 ∧ b.y - a.y = 0
    · exfalso
      apply hab
      rcases a with ⟨ax, ay⟩
      rcases b with ⟨bx, by'⟩
      simp only at hco
      simp only [QPoint.mk.injEq]
      constructor <;> linarith [hco.1, hco.2]
    · rw [if_neg hco]
      exact compass_getD_mem _

/-- Witness for C9_cardinal_direction: due north and coincident cases at
concrete points, with a concrete angle oracle meeting the contract. -/
theorem C9_cardinal_direction_witness :
    get_cardinal_direction (fun _ _ => 90) ⟨2, 3⟩ ⟨2, 7⟩ = "N" ∧
    get_cardinal_direction (fun _ _ => 90) ⟨2, 3⟩ ⟨2, 3⟩ = "None" :=
  ⟨(C9_cardinal_direction (fun _ _ => 90) ⟨2, 3⟩ ⟨2, 7⟩
      (fun _ _ => rfl)).2.2.1 rfl (by norm_num),
   (C9_cardinal_direction (fun _ _ => 90) ⟨2, 3⟩ ⟨2, 3⟩
      (fun _ _ => rfl)).1 rfl⟩

theorem insertAscBy_perm {β : Type} (key : β → ℚ) (x : β) (l : List β) :
    (insertAscBy key x l).Perm (x :: l) := by
  induction l with
  | nil => exact List.Perm.refl _
  | cons y ys ih =>
    rw [insertAscBy]
    by_cases h : key x < key y
    · simp [h]
    · simp only [h, if_false, ite_false]
      exact ((ih.cons y).trans (List.Perm.swap x y ys))

theorem sortAscBy_perm {β : Type} (key : β → ℚ) (l : List β) :
    (sortAscBy key l).Perm l := by
  induction l with
  | nil => exact List.Perm.refl _
  | cons x rest ih =>
    exact (insertAscBy_perm key x (sortAscBy key rest)).trans (ih.cons x)

theorem insertAscBy_sorted {β : Type} (key : β → ℚ) (x : β) (l : List β)
    (h : l.Pairwise (fun a b => key a ≤ key b)) :
    (insertAscBy key x l).Pairwise (fun a b => key a ≤ key b) := by
  induction l with
  | nil => simp [insertAscBy]
  | cons y ys ih =>
    rw [insertAscBy]
    rcases List.pairwise_cons.mp h with ⟨hy, hys⟩
    by_cases hc : key x < key y
    · rw [if_pos hc]
      refine List.pairwise_cons.mpr ⟨?_, h⟩
      intro z hz
      rcases List.mem_cons.mp hz with hz | hz
      · exact hz ▸ le_of_lt hc
      · exact le_trans (le_of_lt hc) (hy z hz)
    · rw [if_neg hc]
      refine List.pairwise_cons.mpr ⟨?_, ih hys⟩
      intro z hz
      have hz' := (insertAscBy_perm key x ys).mem_iff.mp hz
      rcases List.mem_cons.mp hz' with hz' | hz'
      · exact hz' ▸ le_of_not_lt hc
      · exact hy z hz'

theorem sortAscBy_sorted {β : Type} (key : β → ℚ) (l : List β) :
    (sortAscBy key l).Pairwise (fun a b => key a ≤ key b) := by
  induction l with
  | nil => simp [sortAscBy]
  | cons x rest ih => exact insertAscBy_sorted key x (sortAscBy key rest) ih

theorem cardinal_ne_interior (atan2_degrees : ℚ → ℚ → ℚ) (a b : QPoint) :
    get_cardinal_direction atan2_degrees a b ≠ "Interior" := by
  rw [get_cardinal_direction]
  by_cases hco : b.x - a.x = 0 ∧ b.y - a.y = 0
  · rw [if_pos hco]
    decide
  · rw [if_neg hco]
    intro hcontra
    have hmem := compass_getD_mem
      ((pytrunc ((pymod (90 - atan2_degrees (b.y - a.y) (b.x - a.x)) 360 +
        11.25) / 22.5)).toNat % 16)
    rw [hcontra] at hmem
    revert hmem
    decide

/-- Claim C8 (amended): each group is independently sorted by ascending
distance to the fire boundary and capped at the top 50 entries, the dropped
count is recorded as the popped count; the cutoff is the miles distance of
the farthest kept entry when at least one entry was dropped and None
otherwise; interior rows are labeled Interior and the nearest/interior
attribute lists split exactly along that label; and a group with no kept
feature yields a null-valued tuple instead of an empty serialized object. -/
theorem C8_proximity_groups (o : ProxOracles) (var_gdf : List VarFeat)
    (identifier var_alias : String) (included_fields : List String) :
    (interior_sorted o var_gdf).Perm (var_gdf.filter o.intersects) ∧
    (interior_sorted o var_gdf).Pairwise
      (fun x y => o.meters x ≤ o.meters y) ∧
    interior_kept o var_gdf = (interior_sorted o var_gdf).take 50 ∧
    (interior_kept o var_gdf).length =
      min 50 (var_gdf.filter o.intersects).length ∧
    interior_popped o var_gdf = (var_gdf.filter o.intersects).length -
      min 50 (var_gdf.filter o.intersects).length ∧
    (nearest_sorted o var_gdf).Perm
      (var_gdf.filter (fun f => ¬ o.intersects f)) ∧
    (nearest_sorted o var_gdf).Pairwise
      (fun x y => o.meters x ≤ o.meters y) ∧
    (0 < interior_popped o var_gdf →
      interior_cutoff o var_gdf = some (pyround2
        (o.meters ((interior_kept o var_gdf).getLastD ⟨[]⟩) /
          milesDivisor))) ∧
    (interior_popped o var_gdf = 0 → interior_cutoff o var_gdf = none) ∧
    (interior_feats_rows o included_fields var_gdf = sortAscBy ProxRow.dist_mi
      ((interior_kept o var_gdf).map (mk_prox_row o included_fields true))) ∧
    (nearest_feats_rows o included_fields var_gdf = sortAscBy ProxRow.dist_mi
      ((nearest_kept o var_gdf).map (mk_prox_row o included_fields false))) ∧
    (var_gdf = [] →
      nearest_feats_analysis o identifier var_alias included_fields var_gdf =
        [⟨identifier, 0, var_alias ++ "_nearest_feats", .val .jnull⟩,
         ⟨identifier, 0, var_alias ++ "_interior_feats", .val .jnull⟩]) ∧
    (∀ tups,
      nearest_feats_body o identifier var_alias included_fields var_gdf =
        some tups →
      ∃ it nt, tups = [it, nt] ∧
        (interior_feats_rows o included_fields var_gdf = [] →
          it = ⟨identifier, 0, var_alias ++ "_interior_feats",
            .val .jnull⟩) ∧
        (nearest_feats_rows o included_fields var_gdf = [] →
          nt = ⟨identifier, 0, var_alias ++ "_nearest_feats",
            .val .jnull⟩)) := by
  have hsplit_i : (combined_rows o included_fields var_gdf).filter
      (fun r => r.dir = "Interior") =
      (interior_kept o var_gdf).map (mk_prox_row o included_fields true) := by
    rw [combined_rows, List.filter_append]
    have h1 : ((interior_kept o var_gdf).map
        (mk_prox_row o included_fields true)).filter
        (fun r => r.dir = "Interior") =
        (interior_kept o var_gdf).map (mk_prox_row o included_fields true) := by
      rw [List.filter_eq_self]
      intro r hr
      rcases List.mem_map.mp hr with ⟨f, _, hf⟩
      subst hf
      simp [mk_prox_row]
    have h2 : ((nearest_kept o var_gdf).map
        (mk_prox_row o included_fields false)).filter
        (fun r => r.dir = "Interior") = [] := by
      rw [List.filter_eq_nil_iff]
      intro r hr
      rcases List.mem_map.mp hr with ⟨f, _, hf⟩
      subst hf
      simpa [mk_prox_row] using
        cardinal_ne_interior o.atan2_degrees (o.fire_pt f) (o.var_pt f)
    rw [h1, h2, List.append_nil]
  have hsplit_n : (combined_rows o included_fields var_gdf).filter
      (fun r => ¬ r.dir = "Interior") =
      (nearest_kept o var_gdf).map (mk_prox_row o included_fields false) := by
    rw [combined_rows, List.filter_append]
    have h1 : ((interior_kept o var_gdf).map
        (mk_prox_row o included_fields true)).filter
        (fun r => ¬ r.dir = "Interior") = [] := by
      rw [List.filter_eq_nil_iff]
      intro r hr
      rcases List.mem_map.mp hr with ⟨f, _, hf⟩
      subst hf
      simp [mk_prox_row]
    have h2 : ((nearest_kept o var_gdf).map
        (mk_prox_row o included_fields false)).filter
        (fun r => ¬ r.dir = "Interior") =
        (nearest_kept o var_gdf).map (mk_prox_row o included_fields false) := by
      rw [List.filter_eq_self]
      intro r hr
      rcases List.mem_map.mp hr with ⟨f, _, hf⟩
      subst hf
      simpa [mk_prox_row] using
        cardinal_ne_interior o.atan2_degrees (o.fire_pt f) (o.var_pt f)
    rw [h1, h2, List.nil_append]
  refine ⟨sortAscBy_perm o.meters _, sortAscBy_sorted o.meters _, rfl, ?_, ?_,
    sortAscBy_perm o.meters _, sortAscBy_sorted o.meters _, ?_, ?_, ?_, ?_,
    ?_, ?_⟩
  · rw [interior_kept, List.length_take, interior_sorted,
      (sortAscBy_perm o.meters (var_gdf.filter o.intersects)).length_eq]
  · rw [interior_popped, interior_kept, List.length_take, interior_sorted,
      (sortAscBy_perm o.meters (var_gdf.filter o.intersects)).length_eq]
  · intro hpos
    rw [interior_cutoff, if_pos hpos]
  · intro hzero
    rw [interior_cutoff, if_neg (by omega)]
  · rw [interior_feats_rows, hsplit_i]
  · rw [nearest_feats_rows, hsplit_n]
  · intro hnil
    subst hnil
    rfl
  · intro tups htups
    rw [nearest_feats_body] at htups
    by_cases hi : (interior_feats_rows o included_fields var_gdf).isEmpty
    · rw [if_pos hi] at htups
      simp only [Option.pure_def, Option.bind_eq_bind, Option.some_bind]
        at htups
      by_cases hn : (nearest_feats_rows o included_fields var_gdf).isEmpty
      · rw [if_pos hn] at htups
        simp only [Option.some_bind, Option.some_inj] at htups
        subst htups
        exact ⟨_, _, rfl, fun _ => rfl, fun _ => rfl⟩
      · rw [if_neg hn] at htups
        rcases htr : trim_nearest_feats ⟨(nearest_feats_rows o
            included_fields var_gdf).map proxRowFeature,
            Int.ofNat (nearest_popped o var_gdf),
            cutoffJVal (nearest_cutoff o var_gdf)⟩ with _ | s
        · rw [htr] at htups
          simp at htups
        · rw [htr] at htups
          simp only [Option.some_bind, Option.some_inj] at htups
          subst htups
          exact ⟨_, _, rfl, fun _ => rfl,
            fun hne => absurd (List.isEmpty_iff.mpr hne) hn⟩
    · rw [if_neg hi] at htups
      rcases hti : trim_nearest_feats ⟨(interior_feats_rows o
          included_fields var_gdf).map proxRowFeature,
          Int.ofNat (interior_popped o var_gdf),
          cutoffJVal (interior_cutoff o var_gdf)⟩ with _ | s
      · rw [hti] at htups
        simp at htups
      · rw [hti] at htups
        simp only [Option.pure_def, Option.bind_eq_bind, Option.some_bind]
          at htups
        by_cases hn : (nearest_feats_rows o included_fields var_gdf).isEmpty
        · rw [if_pos hn] at htups
          simp only [Option.some_bind, Option.some_inj] at htups
          subst htups
          exact ⟨_, _, rfl,
            fun hne => absurd (List.isEmpty_iff.mpr hne) hi, fun _ => rfl⟩
        · rw [if_neg hn] at htups
          rcases htr : trim_nearest_feats ⟨(nearest_feats_rows o
              included_fields var_gdf).map proxRowFeature,
              Int.ofNat (nearest_popped o var_gdf),
              cutoffJVal (nearest_cutoff o var_gdf)⟩ with _ | s2
          · rw [htr] at htups
            simp at htups
          · rw [htr] at htups
            simp only [Option.some_bind, Option.some_inj] at htups
            subst htups
            exact ⟨_, _, rfl,
              fun hne => absurd (List.isEmpty_iff.mpr hne) hi,
              fun hne => absurd (List.isEmpty_iff.mpr hne) hn⟩

/-- Claim C8, counterexample: a group with one kept entry (two miles from the
fire edge) and nothing dropped gets cutoff None, not the distance in miles of
the farthest kept entry (which is 2.0). -/
theorem C8_counterexample :
    interior_popped exProx [⟨[]⟩] = 0 ∧
    (interior_kept exProx [⟨[]⟩]).length = 1 ∧
    interior_cutoff exProx [⟨[]⟩] = none ∧
    pyround2 (exProx.meters ⟨[]⟩ / milesDivisor) = 2 := by
  refine ⟨rfl, rfl, ?_, ?_⟩
  · rw [interior_cutoff, if_neg (by decide)]
  · have hm : exProx.meters ⟨[]⟩ / milesDivisor = 2 := by
      rw [show exProx.meters ⟨[]⟩ = 160934 / 50 from rfl, milesDivisor]
      norm_num
    rw [hm, pyround2]
    have h200 : roundHalfEven ((2 : ℚ) * 100) = 200 := by
      rw [roundHalfEven]
      norm_num
    rw [h200]
    norm_num

/-- Witness for C8_proximity_groups at the concrete one-candidate input. -/
theorem C8_proximity_groups_witness :
    nearest_feats_analysis exProx "F6" "structures" [] [] =
      [⟨"F6", 0, "structures_nearest_feats", .val .jnull⟩,
       ⟨"F6", 0, "structures_interior_feats", .val .jnull⟩] :=
  ((C8_proximity_groups exProx [] "F6" "structures"
    []).2.2.2.2.2.2.2.2.2.2.2.1) rfl

theorem schedStep_perm (cap : Nat) (s t : SchedState)
    (h : SchedStep cap s t) : (allItems t).Perm (allItems s) := by
  have hcons : ∀ (c : Nat) (rest : List Nat),
      ((↑(c :: rest) : Multiset Nat)) = {c} + ↑rest := by
    intro c rest
    rw [← Multiset.cons_coe, ← Multiset.singleton_add]
  cases h with
  | push ws1 ws2 c rest hw hcap hj =>
    rw [← Multiset.coe_eq_coe]
    simp only [allItems, hw, List.map_append, List.map_cons,
      List.flatten_append, List.flatten_cons, workerItems]
    simp only [← Multiset.coe_add]
    push_cast
    rw [hcons]
    abel
  | exit ws1 ws2 hw hj =>
    rw [← Multiset.coe_eq_coe]
    simp only [allItems, hw, List.map_append, List.map_cons,
      List.flatten_append, List.flatten_cons, workerItems]
  | drain c rest hc hj =>
    rw [← Multiset.coe_eq_coe]
    simp only [allItems, hc]
    simp only [← Multiset.coe_add]
    push_cast
    rw [hcons]
    abel
  | finish hall hchan hj =>
    rw [allItems, allItems, hchan]

theorem schedStep_not_joined (cap : Nat) (s t : SchedState)
    (h : SchedStep cap s t) : s.joined = false := by
  cases h <;> assumption

theorem schedStep_to_joined (cap : Nat) (s t : SchedState)
    (h : SchedStep cap s t) (hj : t.joined = true) :
    (∀ w ∈ s.workers, w = .exited) ∧ s.chan = [] ∧
      t = ⟨s.workers, [], s.collected, true⟩ := by
  cases h with
  | push ws1 ws2 c rest hw hcap hjp => cases hj
  | exit ws1 ws2 hw hjp => cases hj
  | drain c rest hc hjp => cases hj
  | finish hall hchan hjp => exact ⟨hall, hchan, rfl⟩

theorem schedReach_perm (cap : Nat) (s t : SchedState)
    (h : Relation.ReflTransGen (SchedStep cap) s t) :
    (allItems t).Perm (allItems s) := by
  induction h with
  | refl => exact List.Perm.refl _
  | tail hst hlast ih => exact (schedStep_perm cap _ _ hlast).trans ih

/-- Claim C4: one scheduler wave, modelled as the interleaving of worker
pushes/exits with the scheduler's non-blocking drain and liveness checks,
never deadlocks for any channel capacity of at least one — in every
un-joined state some step is enabled, even when payloads exceed the
channel's capacity, because a full channel always enables the drain; the
scheduler passes to the join only from a state where every worker has
exited and the channel is confirmed empty; and a completed wave has
collected exactly the items of the initial state, none lost. -/
theorem C4_scheduler_no_deadlock :
    (∀ (cap : Nat) (s : SchedState), 1 ≤ cap → s.joined = false →
      ∃ t, SchedStep cap s t) ∧
    (∀ (cap : Nat) (s t : SchedState), SchedStep cap s t → t.joined = true →
      (∀ w ∈ s.workers, w = .exited) ∧ s.chan = []) ∧
    (∀ (cap : Nat) (s0 t : SchedState),
      Relation.ReflTransGen (SchedStep cap) s0 t →
      s0.joined = false → t.joined = true →
      t.collected.Perm (allItems s0)) := by
  refine ⟨?_, ?_, ?_⟩
  · intro cap s hcap hj
    rcases hc : s.chan with _ | ⟨c, rest⟩
    · by_cases hall : ∀ w ∈ s.workers, w = .exited
      · exact ⟨_, .finish _ hall hc hj⟩
      · push_neg at hall
        rcases hall with ⟨w, hw, hne⟩
        rcases w with chunks | _
        · rcases List.append_of_mem hw with ⟨ws1, ws2, hsplit⟩
          rcases chunks with _ | ⟨c, rest⟩
          · exact ⟨_, .exit _ ws1 ws2 hsplit hj⟩
          · refine ⟨_, .push _ ws1 ws2 c rest hsplit ?_ hj⟩
            rw [hc]
            simpa using hcap
        · exact absurd rfl hne
    · exact ⟨_, .drain _ c rest hc hj⟩
  · intro cap s t hstep hj
    exact ⟨(schedStep_to_joined cap s t hstep hj).1,
      (schedStep_to_joined cap s t hstep hj).2.1⟩
  · intro cap s0 t hreach hj0 hjt
    rcases (Relation.ReflTransGen.cases_tail hreach) with heq | ⟨s', hs', hlast⟩
    · subst heq
      rw [hj0] at hjt
      cases hjt
    · obtain ⟨hall, hchan, ht⟩ := schedStep_to_joined cap s' t hlast hjt
      have hperm := schedReach_perm cap s0 s' hs'
      have hflat : ((s'.workers.map workerItems).flatten : List Nat) = [] := by
        rw [List.flatten_eq_nil_iff]
        intro l hl
        rcases List.mem_map.mp hl with ⟨w, hw, hwl⟩
        rw [hall w hw] at hwl
        exact hwl ▸ rfl
      have hitems : allItems s' = s'.collected := by
        rw [allItems, hchan, hflat, List.append_nil, List.append_nil]
      rw [ht]
      show List.Perm s'.collected (allItems s0)
      rw [← hitems]
      exact hperm

/-- Witness for C4_scheduler_no_deadlock: a one-worker wave whose two-chunk
payload exceeds a channel of capacity one still completes, collecting the
whole payload. -/
theorem C4_scheduler_no_deadlock_witness :
    ([10, 20] : List Nat).Perm
      (allItems ⟨[.pending [10, 20]], [], [], false⟩) := by
  have h1 : SchedStep 1 ⟨[.pending [10, 20]], [], [], false⟩
      ⟨[.pending [20]], [10], [], false⟩ :=
    .push _ [] [] 10 [20] rfl (by decide) rfl
  have h2 : SchedStep 1 ⟨[.pending [20]], [10], [], false⟩
      ⟨[.pending [20]], [], [10], false⟩ :=
    .drain _ 10 [] rfl rfl
  have h3 : SchedStep 1 ⟨[.pending [20]], [], [10], false⟩
      ⟨[.pending []], [20], [10], false⟩ :=
    .push _ [] [] 20 [] rfl (by decide) rfl
  have h4 : SchedStep 1 ⟨[.pending []], [20], [10], false⟩
      ⟨[.pending []], [], [10, 20], false⟩ :=
    .drain _ 20 [] rfl rfl
  have h5 : SchedStep 1 ⟨[.pending []], [], [10, 20], false⟩
      ⟨[.exited], [], [10, 20], false⟩ :=
    .exit _ [] [] rfl rfl
  have h6 : SchedStep 1 ⟨[.exited], [], [10, 20], false⟩
      ⟨[.exited], [], [10, 20], true⟩ :=
    .finish _ (by intro w hw; simpa using hw) rfl rfl
  have hchain : Relation.ReflTransGen (SchedStep 1)
      ⟨[.pending [10, 20]], [], [], false⟩
      ⟨[.exited], [], [10, 20], true⟩ :=
    Relation.ReflTransGen.head h1 (Relation.ReflTransGen.head h2
      (Relation.ReflTransGen.head h3 (Relation.ReflTransGen.head h4
        (Relation.ReflTransGen.head h5 (Relation.ReflTransGen.single h6)))))
  exact C4_scheduler_no_deadlock.2.2 1 ⟨[.pending [10, 20]], [], [], false⟩
    ⟨[.exited], [], [10, 20], true⟩ hchain rfl rfl
